import Mathlib

/-!
Verification of the textnode typography core.

This file gives a shallow embedding of the numeric/typographic core of the
textnode repository (packages/core: font metrics, fallback calculation,
modular and fluid scales, variant resolution, config validation, and the
react package's font-loading state machine) and proves or refutes the
specified properties about it.

JavaScript numbers are modelled as rationals (exact arithmetic); machine
floating point is out of scope.  `Math.round` is `⌊x + 1/2⌋` (round half
toward +∞), matching ECMAScript.  `Number.prototype.toFixed` rounds the
magnitude half away from zero and re-attaches the sign, matching the
ECMAScript algorithm.  Strings are Lean `String`s; formatting and parsing
are embedded at the character level.
-/

namespace Textnode

/-! ## JavaScript numeric primitives -/

/-- ECMAScript `Math.round`: round half toward positive infinity. -/
def jsRound (q : ℚ) : ℤ := ⌊q + 1/2⌋

/-- Rounding to two decimal places as in `Math.round(x * 100) / 100`. -/
def round2 (q : ℚ) : ℚ := (jsRound (q * 100) : ℚ) / 100

/-! ## Decimal digit strings

`natToStr` is standard base-10 rendering of a natural number (the default
JavaScript number-to-string conversion for nonnegative integers), built from
`Nat.digits`.  `padDigits k f` is the `k`-digit zero-padded big-endian digit
character list of `f < 10^k`, used for the fractional part of `toFixed`. -/

/-- Value of a decimal digit character; 0 for non-digits. -/
def charVal (c : Char) : ℕ := c.toNat - '0'.toNat

/-- Little-endian base-10 digits, fuel-based so that the kernel can
evaluate it (`digitsGo fuel n = Nat.digits 10 n` whenever `n ≤ fuel`). -/
def digitsGo : ℕ → ℕ → List ℕ
  | _, 0 => []
  | 0, _ + 1 => []
  | fuel + 1, n + 1 => ((n + 1) % 10) :: digitsGo fuel ((n + 1) / 10)

/-- Little-endian base-10 digits of a natural number. -/
def natDigitsLE (n : ℕ) : List ℕ := digitsGo n n

/-- Big-endian digit characters of a natural number ("0" for zero). -/
def natChars (n : ℕ) : List Char :=
  if n = 0 then ['0'] else ((natDigitsLE n).map Nat.digitChar).reverse

/-- Standard decimal string of a natural number. -/
def natToStr (n : ℕ) : String := ⟨natChars n⟩

/-- `k`-digit zero-padded big-endian digit characters of `f` (`f < 10^k`). -/
def padDigits (k : ℕ) (f : ℕ) : List Char :=
  let ds := ((natDigitsLE f).map Nat.digitChar).reverse
  List.replicate (k - ds.length) '0' ++ ds

/-- Decimal value of a big-endian list of digit characters. -/
def charsVal (cs : List Char) : ℕ := Nat.ofDigits 10 ((cs.map charVal).reverse)

/-- ECMAScript `Number.prototype.toFixed(k)` for a nonnegative magnitude:
the digit string of `round-half-up(q * 10^k)` with a decimal point inserted
`k` places from the right (always exactly `k` fraction digits). -/
def toFixedMag (k : ℕ) (q : ℚ) : List Char :=
  let n : ℕ := (jsRound (q * 10 ^ k)).toNat
  natChars (n / 10 ^ k) ++ '.' :: padDigits k (n % 10 ^ k)

/-- ECMAScript `x.toFixed(k)`: sign split off, magnitude rounded half away
from zero (ties pick the larger `n` for the magnitude). -/
def jsToFixed (k : ℕ) (q : ℚ) : String :=
  if q < 0 then ⟨'-' :: toFixedMag k (-q)⟩ else ⟨toFixedMag k q⟩

/-! ## Font metrics data model (`packages/core/src/types.ts`) -/

/-- `FontMetrics` record.  The linear fields are JS numbers (rationals);
`capHeight`/`xHeight` are optional.  The remaining optional fields of the
TypeScript interface (`postscriptName`, `weight`, `isItalic`, `numGlyphs`)
are copied verbatim by every operation in scope and are omitted. -/
structure FontMetrics where
  familyName : String
  ascent : ℚ
  descent : ℚ
  lineGap : ℚ
  unitsPerEm : ℚ
  capHeight : Option ℚ := none
  xHeight : Option ℚ := none
  deriving Repr, DecidableEq

/-- `FallbackAdjustments`: four CSS percentage strings. -/
structure FallbackAdjustments where
  ascentOverride : String
  descentOverride : String
  lineGapOverride : String
  sizeAdjust : String
  deriving Repr, DecidableEq

/-! ## Metrics table (`packages/core/src/fonts/metrics.ts`) -/

/-- `SYSTEM_FONT_METRICS`, in object-literal (iteration) order. -/
def SYSTEM_FONT_METRICS : List (String × FontMetrics) :=
  [ ("Arial",
     { familyName := "Arial", ascent := 1854, descent := -434, lineGap := 67,
       unitsPerEm := 2048, capHeight := some 1467, xHeight := some 1062 }),
    ("Helvetica Neue",
     { familyName := "Helvetica Neue", ascent := 952, descent := -213, lineGap := 28,
       unitsPerEm := 1000, capHeight := some 714, xHeight := some 517 }),
    ("Verdana",
     { familyName := "Verdana", ascent := 2059, descent := -430, lineGap := 0,
       unitsPerEm := 2048, capHeight := some 1489, xHeight := some 1117 }),
    ("Georgia",
     { familyName := "Georgia", ascent := 1878, descent := -449, lineGap := 0,
       unitsPerEm := 2048, capHeight := some 1419, xHeight := some 986 }),
    ("Times New Roman",
     { familyName := "Times New Roman", ascent := 1825, descent := -443, lineGap := 87,
       unitsPerEm := 2048, capHeight := some 1356, xHeight := some 916 }),
    ("Courier New",
     { familyName := "Courier New", ascent := 1705, descent := -615, lineGap := 0,
       unitsPerEm := 2048, capHeight := some 1170, xHeight := some 846 }),
    ("system-ui",
     { familyName := "system-ui", ascent := 1900, descent := -400, lineGap := 0,
       unitsPerEm := 2048, capHeight := some 1450, xHeight := some 1050 }),
    ("-apple-system",
     { familyName := "-apple-system", ascent := 1900, descent := -400, lineGap := 0,
       unitsPerEm := 2048, capHeight := some 1450, xHeight := some 1050 }),
    ("Segoe UI",
     { familyName := "Segoe UI", ascent := 2210, descent := -514, lineGap := 0,
       unitsPerEm := 2048, capHeight := some 1434, xHeight := some 1024 }),
    ("Roboto",
     { familyName := "Roboto", ascent := 1900, descent := -500, lineGap := 0,
       unitsPerEm := 2048, capHeight := some 1456, xHeight := some 1082 }) ]

/-- ASCII lower-casing, as `String.prototype.toLowerCase` on ASCII names. -/
def toLowerStr (s : String) : String := ⟨s.data.map Char.toLower⟩

/-- `a.includes(b)`: `b` occurs as a contiguous substring of `a`. -/
def strIncludes (a b : String) : Bool :=
  (List.range (a.data.length + 1)).any fun i => b.data.isPrefixOf (a.data.drop i)

/-- `getSystemFontMetrics`: exact match, then case-insensitive match, then
substring match (either direction), over the table in iteration order. -/
def getSystemFontMetrics (fontName : String) : Option FontMetrics :=
  match SYSTEM_FONT_METRICS.find? (fun p => p.1 = fontName) with
  | some p => some p.2
  | none =>
    let lowerName := toLowerStr fontName
    match SYSTEM_FONT_METRICS.find? (fun p => toLowerStr p.1 = lowerName) with
    | some p => some p.2
    | none =>
      match SYSTEM_FONT_METRICS.find? (fun p =>
          strIncludes lowerName (toLowerStr p.1)
            || strIncludes (toLowerStr p.1) lowerName) with
      | some p => some p.2
      | none => none

/-- `normalizeMetrics(metrics, targetUnitsPerEm)`.  Note the JS truthiness
checks `metrics.capHeight ? … : undefined`: a present-but-zero optional
field is dropped (mapped to `undefined`). -/
def normalizeMetrics (metrics : FontMetrics) (targetUnitsPerEm : ℚ := 1000) :
    FontMetrics :=
  let scale := targetUnitsPerEm / metrics.unitsPerEm
  { metrics with
    unitsPerEm := targetUnitsPerEm
    ascent := (jsRound (metrics.ascent * scale) : ℚ)
    descent := (jsRound (metrics.descent * scale) : ℚ)
    lineGap := (jsRound (metrics.lineGap * scale) : ℚ)
    capHeight := metrics.capHeight.bind fun c =>
      if c = 0 then none else some ((jsRound (c * scale) : ℚ))
    xHeight := metrics.xHeight.bind fun x =>
      if x = 0 then none else some ((jsRound (x * scale) : ℚ)) }

/-- `createDefaultMetrics(familyName)`. -/
def createDefaultMetrics (familyName : String) : FontMetrics :=
  { familyName := familyName, ascent := 900, descent := -200, lineGap := 0,
    unitsPerEm := 1000, capHeight := some 700, xHeight := some 500 }

/-! ## Fallback calculator (`packages/core/src/fonts/fallback.ts`) -/

/-- JS `xHeightOption || 500`: 500 when the value is `undefined` or `0`
(falsy), the value otherwise. -/
def xHeightOr500 (o : Option ℚ) : ℚ :=
  match o with
  | some x => if x = 0 then 500 else x
  | none => 500

/-- `calculateFallbackAdjustments(customMetrics, fallbackFont)`.  The JS
expression `normalized.xHeight || 500` yields 500 when the normalized
x-height is `undefined` or `0` (falsy). -/
def calculateFallbackAdjustments (customMetrics : FontMetrics)
    (fallbackFont : String) : FallbackAdjustments :=
  let fallbackMetrics :=
    (getSystemFontMetrics fallbackFont).getD (createDefaultMetrics fallbackFont)
  let normalized := normalizeMetrics customMetrics 1000
  let normalizedFallback := normalizeMetrics fallbackMetrics 1000
  let ascentOverride := |normalized.ascent| / 1000 * 100
  let descentOverride := |normalized.descent| / 1000 * 100
  let lineGapOverride := normalized.lineGap / 1000 * 100
  let customXHeight := xHeightOr500 normalized.xHeight
  let fallbackXHeight := xHeightOr500 normalizedFallback.xHeight
  let sizeAdjust := customXHeight / fallbackXHeight * 100
  { ascentOverride := jsToFixed 2 ascentOverride ++ "%"
    descentOverride := jsToFixed 2 descentOverride ++ "%"
    lineGapOverride := jsToFixed 2 lineGapOverride ++ "%"
    sizeAdjust := jsToFixed 2 sizeAdjust ++ "%" }

/-- The similarity score of `findBestMatchingFallback`:
`|Δascent| + |Δdescent| + 2·|ΔxHeight|` after normalizing both sides to
1000 units/em (a missing or falsy normalized x-height counts as 500). -/
def fallbackScore (metrics systemMetrics : FontMetrics) : ℚ :=
  let normalizedCustom := normalizeMetrics metrics 1000
  let normalizedSystem := normalizeMetrics systemMetrics 1000
  |normalizedCustom.ascent - normalizedSystem.ascent|
    + |normalizedCustom.descent - normalizedSystem.descent|
    + |xHeightOr500 normalizedCustom.xHeight - xHeightOr500 normalizedSystem.xHeight| * 2

/-- One step of `findBestMatchingFallback`'s loop: keep the entry with the
strictly smallest score (`none` models the initial `bestScore = Infinity`,
which any finite score beats). -/
def fallbackFoldStep (metrics : FontMetrics) (acc : String × Option ℚ)
    (p : String × FontMetrics) : String × Option ℚ :=
  let score := fallbackScore metrics p.2
  match acc.2 with
  | none => (p.1, some score)
  | some best => if score < best then (p.1, some score) else acc

/-- `findBestMatchingFallback(metrics)`. -/
def findBestMatchingFallback (metrics : FontMetrics) : String :=
  (SYSTEM_FONT_METRICS.foldl (fallbackFoldStep metrics) ("Arial", none)).1

/-! ## Number rendering and `parseFloat` -/

/-- Multiplicity of `p ≥ 2` in `n`, fuel-based (`n` itself is enough
fuel since the argument strictly shrinks). -/
def pvGo (p : ℕ) : ℕ → ℕ → ℕ
  | _, 0 => 0
  | n, fuel + 1 =>
    if 2 ≤ p ∧ n ≠ 0 ∧ n % p = 0 then 1 + pvGo p (n / p) fuel else 0

/-- Multiplicity of the prime `p` in `n` (how often `p` divides `n`). -/
def pvAux (p n : ℕ) : ℕ := pvGo p n n

/-- Default JavaScript number-to-string conversion, for rationals with a
finite decimal expansion (the only values the source produces): sign, then
the decimal digits with the decimal point placed to leave no trailing
fractional zeros.  (Values without a finite decimal expansion cannot arise
from the embedded computations that are rendered.) -/
def renderNum (q : ℚ) : String :=
  let sign := if q < 0 then "-" else ""
  let den := q.den
  let k := max (pvAux 2 den) (pvAux 5 den)
  let n := q.num.natAbs * 10 ^ k / den
  if k = 0 then sign ++ natToStr n
  else sign ++ natToStr (n / 10 ^ k) ++ "." ++ ⟨padDigits k (n % 10 ^ k)⟩

/-- Big-endian decimal value of a digit list. -/
def natOfBE (ds : List ℕ) : ℕ := Nat.ofDigits 10 ds.reverse

/-- Split a leading run of decimal digit characters off a character list. -/
def takeDigits : List Char → (List ℕ × List Char)
  | [] => ([], [])
  | c :: rest =>
    if c.isDigit then
      let (ds, r) := takeDigits rest
      (charVal c :: ds, r)
    else ([], c :: rest)

/-- Split an optional leading sign character, returning ±1 and the rest. -/
def splitSign (cs : List Char) : ℚ × List Char :=
  match cs with
  | [] => (1, [])
  | c :: r => if c = '-' then (-1, r) else if c = '+' then (1, r) else (1, cs)

/-- Split an optional leading sign character of the exponent. -/
def splitSignInt (cs : List Char) : ℤ × List Char :=
  match cs with
  | [] => (1, [])
  | c :: r => if c = '-' then (-1, r) else if c = '+' then (1, r) else (1, cs)

/-- JavaScript `parseFloat` on decimal numerals: optional sign, an integer
and/or fraction digit run, and an optional exponent; the longest valid
prefix is parsed and the rest ignored; no digits at all gives `NaN`
(`none`).  The `Infinity` literal and (Unicode) whitespace skipping are
outside this model. -/
def jsParseFloat (s : String) : Option ℚ :=
  let p0 := splitSign s.data
  let p1 := takeDigits p0.2
  let p2 := if p1.2.head? = some '.' then takeDigits p1.2.tail else ([], p1.2)
  if p1.1.isEmpty && p2.1.isEmpty then none
  else
    let mantissa : ℚ := (natOfBE p1.1 : ℚ) + (natOfBE p2.1 : ℚ) / 10 ^ p2.1.length
    let expv : ℤ :=
      if p2.2.head? = some 'e' ∨ p2.2.head? = some 'E' then
        let q0 := splitSignInt p2.2.tail
        let q1 := takeDigits q0.2
        if q1.1.isEmpty then 0 else q0.1 * (natOfBE q1.1 : ℤ)
      else 0
    some (p0.1 * mantissa * (10 : ℚ) ^ expv)

/-! ## Scale engine (`packages/core/src/scale`) -/

/-- A computed scale value: a number (modular/fixed) or a CSS string
(fluid `clamp(...)`/custom). -/
inductive ScaleValue where
  | num (q : ℚ)
  | str (s : String)
  deriving Repr, DecidableEq

/-- `ComputedScale`: string-keyed mapping in insertion order. -/
abbrev ComputedScale := List (String × ScaleValue)

/-- `ModularScaleConfig` (the `type: 'modular'` tag is implicit). -/
structure ModularScaleConfig where
  base : ℚ
  ratio : ℚ
  deriving Repr, DecidableEq

/-- The ten fixed step names, in order (`modular.ts`/`fluid.ts`). -/
def DEFAULT_STEP_NAMES : List String :=
  ["xs", "sm", "base", "lg", "xl", "2xl", "3xl", "4xl", "5xl", "6xl"]

/-- `calculateModularStep(base, ratio, step) = base * ratio^step`. -/
def calculateModularStep (base ratio : ℚ) (step : ℤ) : ℚ := base * ratio ^ step

/-- `calculateModularScale(config)`: step `index - 2` for each named step,
rounded to 2 decimal places. -/
def calculateModularScale (config : ModularScaleConfig) : List (String × ℚ) :=
  DEFAULT_STEP_NAMES.enum.map fun p =>
    (p.2, round2 (calculateModularStep config.base config.ratio ((p.1 : ℤ) - 2)))

/-- Injection of a numeric scale into `ComputedScale`. -/
def scaleOfNum (l : List (String × ℚ)) : ComputedScale :=
  l.map fun p => (p.1, ScaleValue.num p.2)

/-- Strip the regex `/\.?0+$/` (used in `calculateFluidSize`): remove the
maximal trailing run of `'0'` characters, and the `'.'` immediately before
it when at least one zero was removed. -/
def stripTrailingZeros (s : String) : String :=
  let rev := s.data.reverse
  let rev' := rev.dropWhile (· = '0')
  if rev'.length < rev.length then
    match rev' with
    | '.' :: r => ⟨r.reverse⟩
    | r => ⟨r.reverse⟩
  else s

/-- `toFixed(4)` followed by trailing-zero trimming, as used for every
numeric literal in `calculateFluidSize`. -/
def fmtFluid (q : ℚ) : String := stripTrailingZeros (jsToFixed 4 q)

/-- `calculateFluidSize(minSize, maxSize, minViewport, maxViewport)`:
linear interpolation in rem/vw, emitted as a CSS `clamp()` string. -/
def calculateFluidSize (minSize maxSize minViewport maxViewport : ℚ) : String :=
  let minRem := minSize / 16
  let maxRem := maxSize / 16
  let minVwRem := minViewport / 16
  let maxVwRem := maxViewport / 16
  let slope := (maxRem - minRem) / (maxVwRem - minVwRem)
  let intercept := minRem - slope * minVwRem
  let slopeVw := slope * 100
  let preferred :=
    if 0 ≤ intercept then fmtFluid intercept ++ "rem + " ++ fmtFluid slopeVw ++ "vw"
    else fmtFluid slopeVw ++ "vw - " ++ fmtFluid |intercept| ++ "rem"
  "clamp(" ++ fmtFluid minRem ++ "rem, " ++ preferred ++ ", " ++ fmtFluid maxRem ++ "rem)"

/-- Character class `[0-9.]` of the `parseClampExpression` regex. -/
def isDigitOrDot (c : Char) : Bool := c.isDigit || c = '.'

/-- `parseClampExpression(clamp)`: embedding of the regex
`/clamp\(([0-9.]+)rem,.*,\s*([0-9.]+)rem\)/` match on the strings produced
by `calculateFluidSize`: the first capture is the maximal `[0-9.]+` run
directly after `clamp(` (which must be nonempty and followed by `rem,`),
the second the maximal `[0-9.]+` run directly before the final `rem)`;
both are `parseFloat`ed and scaled by 16 (rem to px). -/
def parseClampExpression (clamp : String) : Option (ℚ × ℚ) :=
  let cs := clamp.data
  let pre := "clamp(".data
  if pre.isPrefixOf cs then
    let rest := cs.drop pre.length
    let g1 := rest.takeWhile isDigitOrDot
    let rest₁ := rest.drop g1.length
    if g1.isEmpty then none
    else if "rem,".data.isPrefixOf rest₁ then
      let rev := cs.reverse
      if "rem)".data.reverse.isPrefixOf rev then
        let g2rev := (rev.drop 4).takeWhile isDigitOrDot
        if g2rev.isEmpty then none
        else
          match jsParseFloat ⟨g1⟩, jsParseFloat ⟨g2rev.reverse⟩ with
          | some a, some b => some (a * 16, b * 16)
          | _, _ => none
      else none
    else none
  else none

/-- `getScaleValue(scale, key, fallback?)`: exact key lookup, then numeric
parse of the key itself, then the explicit fallback, then
`scale['base'] ?? 16`. -/
def getScaleValue (scale : ComputedScale) (key : String)
    (fallback : Option ScaleValue := none) : ScaleValue :=
  match scale.find? (·.1 = key) with
  | some p => p.2
  | none =>
    match jsParseFloat key with
    | some q => ScaleValue.num q
    | none =>
      match fallback with
      | some f => f
      | none =>
        match scale.find? (·.1 = "base") with
        | some p => p.2
        | none => ScaleValue.num 16

/-- CSS units accepted by `scaleValueToCSS`. -/
inductive CSSUnit where
  | px
  | rem
  | em
  deriving Repr, DecidableEq

/-- `scaleValueToCSS(value, unit = 'px')`. -/
def scaleValueToCSS (value : ScaleValue) (unit : CSSUnit := .px) : String :=
  match value with
  | .str s => s
  | .num q =>
    match unit with
    | .rem => renderNum (q / 16) ++ "rem"
    | .em => renderNum q ++ "em"
    | .px => renderNum q ++ "px"

/-! ## Fonts configuration (`packages/core/src/types.ts`) -/

/-- `FallbackConfig` (manual override strings omitted; no claim reads
them). -/
structure FallbackConfig where
  font : String
  auto : Bool := false
  deriving Repr, DecidableEq

/-- `FontDefinition`.  `files` maps numeric weights to file paths in
insertion order; `display` is kept as a raw string so the validator's
check on it is meaningful.  `preload`/`variable`/`style` are never read by
the claims and are omitted. -/
structure FontDefinition where
  name : String
  files : List (ℕ × String)
  fallback : Option FallbackConfig := none
  display : Option String := none
  deriving Repr, DecidableEq

/-- `FontsConfig`: font definitions keyed by name, in insertion order. -/
abbrev FontsConfig := List (String × FontDefinition)

/-! ## Variant resolver (`packages/core/src/fonts/variants.ts`, the module
re-exported from `fonts/metrics.ts`'s companion file) -/

/-- `LETTER_SPACING_PRESETS` (`config/schema.ts`). -/
def LETTER_SPACING_PRESETS : List (String × String) :=
  [("tighter", "-0.05em"), ("tight", "-0.025em"), ("normal", "0"),
   ("wide", "0.025em"), ("wider", "0.05em"), ("widest", "0.1em")]

/-- `VariantDefinition`.  `fontSize` is a scale key or a literal number;
`lineHeight` a number or string. -/
structure VariantDefinition where
  fontSize : String ⊕ ℚ
  fontWeight : Option ℕ := none
  lineHeight : Option (ℚ ⊕ String) := none
  fontFamily : Option String := none
  letterSpacing : Option String := none
  textTransform : Option String := none
  fontStyle : Option String := none
  deriving Repr, DecidableEq

/-- `ComputedVariantStyles`.  `fontSize` is always overwritten with a
string by `resolveVariant` (the numeric default 16 is dead). -/
structure ComputedVariantStyles where
  fontSize : String
  fontWeight : Option ℕ := none
  lineHeight : Option (ℚ ⊕ String) := none
  fontFamily : Option String := none
  letterSpacing : Option String := none
  textTransform : Option String := none
  fontStyle : Option String := none
  deriving Repr, DecidableEq

/-- `resolveLetterSpacing`: presets map to literal em values, anything
else passes through (empty string is falsy and yields `undefined`). -/
def resolveLetterSpacing (value : Option String) : Option String :=
  match value with
  | none => none
  | some s =>
    if s = "" then none
    else
      match LETTER_SPACING_PRESETS.find? (·.1 = s) with
      | some p => some p.2
      | none => some s

/-- `resolveFontFamily(fontKey, fonts)`: `[name, 'name Fallback',
fallback.font]` plus a generic family chosen by name heuristic; names
containing a space are single-quoted; parts joined by `", "`. -/
def resolveFontFamily (fontKey : String) (fonts : FontsConfig) : Option String :=
  if fontKey = "" then none
  else
    match fonts.find? (·.1 = fontKey) with
    | none => none
    | some p =>
      let font := p.2
      let parts := [font.name] ++
        (match font.fallback with
         | some fb => [font.name ++ " Fallback", fb.font]
         | none => [])
      let lowerName := toLowerStr font.name
      let generic :=
        if strIncludes lowerName "mono" || strIncludes lowerName "code" then
          "monospace"
        else if strIncludes lowerName "serif" && !strIncludes lowerName "sans" then
          "serif"
        else "sans-serif"
      some (String.intercalate ", "
        ((parts ++ [generic]).map fun q =>
          if strIncludes q " " then "'" ++ q ++ "'" else q))

/-- `resolveVariant(variant, scale, fonts)`. -/
def resolveVariant (variant : VariantDefinition) (scale : ComputedScale)
    (fonts : FontsConfig) : ComputedVariantStyles :=
  { fontSize :=
      match variant.fontSize with
      | .inl key => scaleValueToCSS (getScaleValue scale key)
      | .inr q => renderNum q ++ "px"
    fontWeight := variant.fontWeight
    lineHeight := variant.lineHeight
    fontFamily := variant.fontFamily.bind fun k => resolveFontFamily k fonts
    letterSpacing :=
      variant.letterSpacing.bind fun s =>
        if s = "" then none else resolveLetterSpacing (some s)
    textTransform :=
      variant.textTransform.bind fun s => if s = "" then none else some s
    fontStyle :=
      variant.fontStyle.bind fun s => if s = "" then none else some s }

/-! ## Config validator (`packages/core/src/config/validator.ts`)

The configuration is modelled with the structures above; checks that can
only fail for dynamically-typed input (`typeof x !== 'object'` and
friends) are vacuous in the typed model and not reproduced. -/

/-- `ScaleConfig`: tagged union over the four scale types. -/
inductive ScaleConfig where
  | modular (base ratio : ℚ)
  | fixed (values : List (String × ℚ))
  | fluid (minViewport maxViewport minScale maxScale : ℚ) (base : Option ℚ)
  | custom (values : List (String × ScaleValue))
  deriving Repr, DecidableEq

/-- `TextnodeConfig` (optimization/licenses/themes are never validated). -/
structure TextnodeConfig where
  fonts : FontsConfig
  scale : ScaleConfig
  variants : Option (List (String × VariantDefinition)) := none

/-- `ConfigValidationError`: structured `{message, path, suggestion}`. -/
structure ConfigValidationError where
  message : String
  path : String
  suggestion : Option String := none
  deriving Repr, DecidableEq

/-- `ValidationResult`. -/
structure ValidationResult where
  valid : Bool
  errors : List ConfigValidationError
  warnings : List String
  deriving Repr, DecidableEq

/-- `VALID_WEIGHTS`. -/
def VALID_WEIGHTS : List ℕ := [100, 200, 300, 400, 500, 600, 700, 800, 900]

/-- `VALID_FONT_DISPLAY`. -/
def VALID_FONT_DISPLAY : List String :=
  ["auto", "block", "swap", "fallback", "optional"]

/-- `validateFont(fontKey, font, result)`: errors and warnings this font
contributes, in emission order. -/
def validateFont (fontKey : String) (font : FontDefinition) :
    List ConfigValidationError × List String :=
  let path := "fonts." ++ fontKey
  let nameErrs :=
    if font.name = "" then
      [{ message := "Font must have a \x22name\x22 property", path := path,
         suggestion := some ("Add a name property: \x7b name: \x22" ++ fontKey ++ "\x22 \x7d")
         : ConfigValidationError }]
    else []
  let fileWarns :=
    if font.files.isEmpty then
      [path ++ ": No font files specified. Add at least one weight."]
    else []
  let fileErrs := font.files.flatMap fun w =>
    if VALID_WEIGHTS.contains w.1 then []
    else
      [{ message := "Invalid font weight: " ++ natToStr w.1,
         path := path ++ ".files." ++ natToStr w.1,
         suggestion := some ("Valid weights are: "
           ++ String.intercalate ", " (VALID_WEIGHTS.map natToStr))
         : ConfigValidationError }]
  let displayErrs :=
    match font.display with
    | some d =>
      if d ≠ "" && !VALID_FONT_DISPLAY.contains d then
        [{ message := "Invalid font-display value: " ++ d,
           path := path ++ ".display",
           suggestion := some ("Valid values are: "
             ++ String.intercalate ", " VALID_FONT_DISPLAY)
           : ConfigValidationError }]
      else []
    | none => []
  let fallbackErrs :=
    match font.fallback with
    | some fb =>
      if fb.font = "" then
        [{ message := "Fallback must have a \x22font\x22 property",
           path := path ++ ".fallback",
           suggestion := some "Specify a system font: \x7b font: \x22Arial\x22 \x7d"
           : ConfigValidationError }]
      else []
    | none => []
  (nameErrs ++ fileErrs ++ displayErrs ++ fallbackErrs, fileWarns)

/-- `validateScale(scale, result)`. -/
def validateScale (scale : ScaleConfig) : List ConfigValidationError :=
  match scale with
  | .modular base ratio =>
    (if base ≤ 0 then
      [{ message := "Modular scale requires a positive \x22base\x22 value",
         path := "scale.base", suggestion := some "Common base value: 16"
         : ConfigValidationError }]
     else []) ++
    (if ratio ≤ 0 then
      [{ message := "Modular scale requires a positive \x22ratio\x22 value",
         path := "scale.ratio",
         suggestion := some "Common ratios: 1.25 (Major Third), 1.5 (Perfect Fifth), 1.618 (Golden Ratio)"
         : ConfigValidationError }]
     else [])
  | .fixed values =>
    values.flatMap fun p =>
      if p.2 ≤ 0 then
        [{ message := "Scale value \x22" ++ p.1 ++ "\x22 must be a positive number",
           path := "scale.values." ++ p.1,
           suggestion := some "Provide a pixel value like 16"
           : ConfigValidationError }]
      else []
  | .fluid minViewport maxViewport _ _ _ =>
    (if minViewport ≤ 0 then
      [{ message := "Fluid scale requires positive \x22minViewport\x22 value",
         path := "scale.minViewport", suggestion := some "Common value: 320"
         : ConfigValidationError }]
     else []) ++
    (if maxViewport ≤ 0 then
      [{ message := "Fluid scale requires positive \x22maxViewport\x22 value",
         path := "scale.maxViewport", suggestion := some "Common value: 1920"
         : ConfigValidationError }]
     else []) ++
    (if maxViewport ≤ minViewport then
      [{ message := "minViewport must be less than maxViewport",
         path := "scale",
         suggestion := some "Example: minViewport: 320, maxViewport: 1920"
         : ConfigValidationError }]
     else [])
  | .custom _ => []

/-- `validateVariant(variantKey, variant, fontKeys, result)`. -/
def validateVariant (variantKey : String) (variant : VariantDefinition)
    (fontKeys : List String) : List ConfigValidationError × List String :=
  let path := "variants." ++ variantKey
  let weightErrs :=
    match variant.fontWeight with
    | some w =>
      if !VALID_WEIGHTS.contains w then
        [{ message := "Invalid font weight: " ++ natToStr w,
           path := path ++ ".fontWeight",
           suggestion := some ("Valid weights are: "
             ++ String.intercalate ", " (VALID_WEIGHTS.map natToStr))
           : ConfigValidationError }]
      else []
    | none => []
  let familyWarns :=
    match variant.fontFamily with
    | some f =>
      if f ≠ "" && !fontKeys.contains f then
        [path ++ ".fontFamily: \x22" ++ f ++ "\x22 is not defined in fonts config. "
          ++ "Available fonts: " ++ String.intercalate ", " fontKeys]
      else []
    | none => []
  let lineHeightErrs :=
    match variant.lineHeight with
    | some (.inl q) =>
      if q ≤ 0 then
        [{ message := "lineHeight must be positive",
           path := path ++ ".lineHeight",
           suggestion := some "Common values: 1.2, 1.5, 1.75"
           : ConfigValidationError }]
      else []
    | _ => []
  (weightErrs ++ lineHeightErrs, familyWarns)

/-- `validateConfig(config)`: fonts, then scale, then variants; `valid`
iff no errors were collected. -/
def validateConfig (config : TextnodeConfig) : ValidationResult :=
  let fontWarn :=
    if config.fonts.isEmpty then
      ["No fonts defined. Add at least one font to use textnode effectively."]
    else []
  let fontResults := config.fonts.map fun p => validateFont p.1 p.2
  let fontErrs := fontResults.flatMap Prod.fst
  let fontWarns := fontWarn ++ fontResults.flatMap Prod.snd
  let scaleErrs := validateScale config.scale
  let fontKeys := config.fonts.map Prod.fst
  let variantResults :=
    match config.variants with
    | some vs => vs.map fun (p : String × VariantDefinition) => validateVariant p.1 p.2 fontKeys
    | none => []
  let variantErrs := variantResults.flatMap Prod.fst
  let variantWarns := variantResults.flatMap Prod.snd
  let errors := fontErrs ++ scaleErrs ++ variantErrs
  { valid := errors.isEmpty, errors := errors,
    warnings := fontWarns ++ variantWarns }

/-! ## Font loading state machine
(`packages/react/src/components/TypographyProvider.tsx`) -/

/-- Per-font `FontLoadingState` (the error object is modelled by its
message). -/
structure FontLoadingState where
  loading : Bool
  loaded : Bool
  error : Option String
  deriving Repr, DecidableEq

/-- The initial `defaultFontState` (`context/FontContext.tsx`). -/
def defaultFontState : FontLoadingState :=
  { loading := false, loaded := false, error := none }

/-- `{ loading: true, loaded: false, error: null }` written by `loadFont`
on start and by `loadAllFonts` when marking all fonts loading. -/
def loadingState : FontLoadingState :=
  { loading := true, loaded := false, error := none }

/-- `{ loading: false, loaded: true, error: null }` written on success. -/
def loadedState : FontLoadingState :=
  { loading := false, loaded := true, error := none }

/-- `{ loading: false, loaded: false, error }` written on failure. -/
def failedState (e : String) : FontLoadingState :=
  { loading := false, loaded := false, error := some e }

/-- The provider's state store: per-font-key states. -/
abbrev FontStates := String → FontLoadingState

/-- Functional update of one key (`setFontStates` with a single-key
spread). -/
def setFontState (s : FontStates) (key : String) (v : FontLoadingState) :
    FontStates :=
  fun k => if k = key then v else s k

/-- Functional update of a set of keys (`setFontStates` with a loop over
keys, as in `loadAllFonts` and its progress callback). -/
def setFontStatesAll (s : FontStates) (keys : List String)
    (v : FontLoadingState) : FontStates :=
  fun k => if k ∈ keys then v else s k

/-- The states reachable by the font-loading state machine: the initial
all-idle state, the three `loadFont` writes (start/success/failure, also
reached via `requestFont` and `reloadFonts`), and the two `loadAllFonts`
writes of the auto-load path (mark-all-loading and the progress callback
marking a batch loaded). -/
inductive ReachableFontStates : FontStates → Prop where
  | init : ReachableFontStates fun _ => defaultFontState
  | loadStart (s : FontStates) (key : String) :
      ReachableFontStates s →
      ReachableFontStates (setFontState s key loadingState)
  | loadSuccess (s : FontStates) (key : String) :
      ReachableFontStates s →
      ReachableFontStates (setFontState s key loadedState)
  | loadFailure (s : FontStates) (key : String) (e : String) :
      ReachableFontStates s →
      ReachableFontStates (setFontState s key (failedState e))
  | autoLoadStart (s : FontStates) (keys : List String) :
      ReachableFontStates s →
      ReachableFontStates (setFontStatesAll s keys loadingState)
  | autoLoadProgress (s : FontStates) (keys : List String) :
      ReachableFontStates s →
      ReachableFontStates (setFontStatesAll s keys loadedState)

/-! ## Specification-side definitions

These follow the wording of the specification/claims, for comparison with
the code embeddings above.  They are used only to state refinement
results and corrections. -/

/-- Normalization as the specification words it: "rescales all linear
fields by `targetUnitsPerEm / unitsPerEm`, rounding to nearest integer" —
with no JS-truthiness dropping of present-but-zero optional fields. -/
def specNormalizeMetrics (metrics : FontMetrics) (targetUnitsPerEm : ℚ) :
    FontMetrics :=
  let scale := targetUnitsPerEm / metrics.unitsPerEm
  { metrics with
    unitsPerEm := targetUnitsPerEm
    ascent := (jsRound (metrics.ascent * scale) : ℚ)
    descent := (jsRound (metrics.descent * scale) : ℚ)
    lineGap := (jsRound (metrics.lineGap * scale) : ℚ)
    capHeight := metrics.capHeight.map fun c => ((jsRound (c * scale) : ℚ))
    xHeight := metrics.xHeight.map fun x => ((jsRound (x * scale) : ℚ)) }

/-- Claim C1 as written: after normalizing both sides to 1000 units/em,
`sizeAdjust = xHeight_custom / xHeight_fallback * 100` where an x-height
defaults to 500 only when it is *missing*. -/
def specFallbackAdjustmentsClaim (customMetrics : FontMetrics)
    (fallbackFont : String) : FallbackAdjustments :=
  let fallbackMetrics :=
    (getSystemFontMetrics fallbackFont).getD (createDefaultMetrics fallbackFont)
  let normalized := specNormalizeMetrics customMetrics 1000
  let normalizedFallback := specNormalizeMetrics fallbackMetrics 1000
  let customXHeight := normalized.xHeight.getD 500
  let fallbackXHeight := normalizedFallback.xHeight.getD 500
  { ascentOverride := jsToFixed 2 (|normalized.ascent| / 1000 * 100) ++ "%"
    descentOverride := jsToFixed 2 (|normalized.descent| / 1000 * 100) ++ "%"
    lineGapOverride := jsToFixed 2 (normalized.lineGap / 1000 * 100) ++ "%"
    sizeAdjust := jsToFixed 2 (customXHeight / fallbackXHeight * 100) ++ "%" }

/-- Claim C1 amended: an x-height whose normalized value is missing *or
zero* (in particular an x-height that is absent, zero, or small enough to
round to zero) defaults to 500. -/
def specFallbackAdjustmentsAmended (customMetrics : FontMetrics)
    (fallbackFont : String) : FallbackAdjustments :=
  let fallbackMetrics :=
    (getSystemFontMetrics fallbackFont).getD (createDefaultMetrics fallbackFont)
  let normalized := specNormalizeMetrics customMetrics 1000
  let normalizedFallback := specNormalizeMetrics fallbackMetrics 1000
  let customXHeight := xHeightOr500 normalized.xHeight
  let fallbackXHeight := xHeightOr500 normalizedFallback.xHeight
  { ascentOverride := jsToFixed 2 (|normalized.ascent| / 1000 * 100) ++ "%"
    descentOverride := jsToFixed 2 (|normalized.descent| / 1000 * 100) ++ "%"
    lineGapOverride := jsToFixed 2 (normalized.lineGap / 1000 * 100) ++ "%"
    sizeAdjust := jsToFixed 2 (customXHeight / fallbackXHeight * 100) ++ "%" }

/-- Claim C6's similarity score as written: both sides normalized to
1000 units/em per the spec's normalization, and only a *missing*
x-height defaulting to 500 (no JS-falsy default of a present zero). -/
def specFallbackScoreClaim (metrics systemMetrics : FontMetrics) : ℚ :=
  let normalizedCustom := specNormalizeMetrics metrics 1000
  let normalizedSystem := specNormalizeMetrics systemMetrics 1000
  |normalizedCustom.ascent - normalizedSystem.ascent|
    + |normalizedCustom.descent - normalizedSystem.descent|
    + |normalizedCustom.xHeight.getD 500 - normalizedSystem.xHeight.getD 500| * 2

/-! ## String helpers for stating claims -/

/-- Drop everything up to and including the first occurrence of `p` in
`cs`; `none` when `p` does not occur. -/
def dropAfterMatch (p : List Char) : List Char → Option (List Char)
  | [] => if p.isEmpty then some [] else none
  | c :: t =>
    if p.isPrefixOf (c :: t) then some ((c :: t).drop p.length)
    else dropAfterMatch p t

/-- All of `parts` occur in `s` as substrings, in order and without
overlap. -/
def containsInOrder (s : String) (parts : List String) : Bool :=
  go s.data parts
where
  go : List Char → List String → Bool
  | _, [] => true
  | cs, q :: qs =>
    match dropAfterMatch q.data cs with
    | some rest => go rest qs
    | none => false

/-- `s` ends with `suffix`. -/
def endsWithStr (s suffix : String) : Bool :=
  suffix.data.reverse.isPrefixOf s.data.reverse

/-! ## Concrete configurations from the end-to-end scenarios -/

/-- Fonts config of the end-to-end scenario: `heading` is Inter with an
Arial fallback. -/
def scenarioFonts : FontsConfig :=
  [("heading",
    { name := "Inter", files := [(700, "x.woff2")],
      fallback := some { font := "Arial", auto := true } })]

/-- The `h1` variant of the end-to-end scenario. -/
def scenarioH1 : VariantDefinition :=
  { fontSize := .inl "5xl", fontWeight := some 700, fontFamily := some "heading" }

/-- The computed scale of the end-to-end scenario
(`{type:'modular', base:16, ratio:1.25}`). -/
def scenarioScale : ComputedScale :=
  scaleOfNum (calculateModularScale { base := 16, ratio := 5/4 })

/-- The resolved `h1` style of the end-to-end scenario. -/
def scenarioH1Style : ComputedVariantStyles :=
  resolveVariant scenarioH1 scenarioScale scenarioFonts

/-- The validation scenario: a config valid except for a font weight of
450 in `fonts.heading.files`. -/
def invalidWeightConfig : TextnodeConfig :=
  { fonts := [("heading", { name := "Inter", files := [(450, "x.woff2")] })],
    scale := .modular 16 (5/4) }

/-- A metrics record with all-integer fields and a present-but-zero
`xHeight` (boundary input for idempotence of normalization). -/
def zeroXHeightMetrics : FontMetrics :=
  { familyName := "F", ascent := 900, descent := -200, lineGap := 0,
    unitsPerEm := 1000, xHeight := some 0 }

/-- A plain metrics record with nonzero integer fields. -/
def integerMetrics : FontMetrics :=
  { familyName := "W", ascent := 900, descent := -200, lineGap := 0,
    unitsPerEm := 1000, capHeight := some 700, xHeight := some 500 }

/-- A metrics record whose present x-height (1 design unit at 2048
units/em) rounds to 0 under normalization to 1000 units/em. -/
def tinyXHeightMetrics : FontMetrics :=
  { familyName := "T", ascent := 900, descent := -200, lineGap := 0,
    unitsPerEm := 2048, xHeight := some 1 }

/-- A metrics record with a negative line gap. -/
def negativeLineGapMetrics : FontMetrics :=
  { familyName := "T", ascent := 900, descent := -200, lineGap := -100,
    unitsPerEm := 1000, xHeight := some 500 }

/-! # Theorems -/

set_option maxRecDepth 8000

/-! ## C2: end-to-end variant resolution scenario -/

/-- Claim C2: for the configuration with scale
`{type:'modular', base:16, ratio:1.25}`, fonts
`{heading: {name:'Inter', files:{700:'x.woff2'}, fallback:{font:'Arial', auto:true}}}`
and variants `{h1: {fontSize:'5xl', fontWeight:700, fontFamily:'heading'}}`,
resolving `h1` yields a fontSize equal to the modular `5xl` value
(`16·1.25⁶` rounded to 2 decimals, i.e. 61.04) as a px string,
fontWeight 700, and a fontFamily containing `Inter`, `Inter Fallback`
and `Arial` in that order. -/
theorem scenario_h1_resolution :
    (calculateModularScale { base := 16, ratio := 5/4 }).find? (·.1 = "5xl")
        = some ("5xl", round2 (calculateModularStep 16 (5/4) 6))
      ∧ scenarioH1Style.fontSize
        = scaleValueToCSS (ScaleValue.num (round2 (calculateModularStep 16 (5/4) 6)))
      ∧ scenarioH1Style.fontSize = "61.04px"
      ∧ scenarioH1Style.fontWeight = some 700
      ∧ scenarioH1Style.fontFamily = some "Inter, 'Inter Fallback', Arial, sans-serif"
      ∧ containsInOrder "Inter, 'Inter Fallback', Arial, sans-serif"
          ["Inter", "Inter Fallback", "Arial"] = true :=
  ⟨by with_unfolding_all rfl, by with_unfolding_all rfl, by with_unfolding_all rfl,
   by with_unfolding_all rfl, by with_unfolding_all rfl, by decide⟩

/-! ## C8: validation of an invalid font weight -/

/-- Claim C8: a configuration that is valid except for a font `files`
mapping of `{450: 'x.woff2'}` produces exactly one validation error, and
that error's path ends in `.files.450`. -/
theorem invalidWeight_single_error :
    (validateConfig invalidWeightConfig).errors.length = 1
      ∧ (validateConfig invalidWeightConfig).errors.map ConfigValidationError.path
        = ["fonts.heading.files.450"]
      ∧ endsWithStr "fonts.heading.files.450" ".files.450" = true :=
  ⟨by with_unfolding_all rfl, by with_unfolding_all rfl, by decide⟩

/-! ## C9: the font-loading state machine never has `loading ∧ loaded` -/

/-- Claim C9: in every reachable state of the font-loading state machine,
no font key ever has `loading` and `loaded` simultaneously true. -/
theorem fontLoadingState_mutex (s : FontStates) (h : ReachableFontStates s)
    (key : String) : ¬((s key).loading = true ∧ (s key).loaded = true) := by
  induction h with
  | init => simp [defaultFontState]
  | loadStart s' k _ ih =>
    by_cases hc : key = k
    · simp [setFontState, hc, loadingState]
    · simpa [setFontState, hc] using ih
  | loadSuccess s' k _ ih =>
    by_cases hc : key = k
    · simp [setFontState, hc, loadedState]
    · simpa [setFontState, hc] using ih
  | loadFailure s' k e _ ih =>
    by_cases hc : key = k
    · simp [setFontState, hc, failedState]
    · simpa [setFontState, hc] using ih
  | autoLoadStart s' keys _ ih =>
    by_cases hc : key ∈ keys
    · simp [setFontStatesAll, hc, loadingState]
    · simpa [setFontStatesAll, hc] using ih
  | autoLoadProgress s' keys _ ih =>
    by_cases hc : key ∈ keys
    · simp [setFontStatesAll, hc, loadedState]
    · simpa [setFontStatesAll, hc] using ih

/-- Witness for C9 at the initial state and the key `"heading"`. -/
theorem fontLoadingState_mutex_witness :
    ¬((((fun _ => defaultFontState) : FontStates) "heading").loading = true
        ∧ (((fun _ => defaultFontState) : FontStates) "heading").loaded = true) :=
  fontLoadingState_mutex _ ReachableFontStates.init "heading"

/-! ## C10: scale lookup falls back to a numeric parse of the key -/

/-- Claim C10: for a key absent from the scale, `getScaleValue` returns
the `parseFloat` of the key when the key has a numeric prefix (so
`resolveVariant` renders that number with a `px` suffix), and only keys
with no leading number fall back to `scale['base'] ?? 16`. -/
theorem getScaleValue_numeric_key (scale : ComputedScale) (key : String)
    (h : scale.find? (·.1 = key) = none) :
    (∀ q : ℚ, jsParseFloat key = some q →
        getScaleValue scale key = ScaleValue.num q
          ∧ (resolveVariant { fontSize := .inl key } scale []).fontSize
            = renderNum q ++ "px")
      ∧ (jsParseFloat key = none →
        getScaleValue scale key
          = ((scale.find? (·.1 = "base")).map Prod.snd).getD (ScaleValue.num 16)) := by
  constructor
  · intro q hq
    refine ⟨?_, ?_⟩
    · simp [getScaleValue, h, hq]
    · simp [resolveVariant, getScaleValue, h, hq, scaleValueToCSS]
  · intro hq
    cases hfind : scale.find? (·.1 = "base") with
    | none => simp [getScaleValue, h, hq, hfind]
    | some p => simp [getScaleValue, h, hq, hfind]

/-- Witness for C10: the scale `{xs: 12}` lacks the key `"5xl"`, whose
numeric prefix parses to 5, and the variant renders as `5px`. -/
theorem getScaleValue_numeric_key_witness :
    (scaleOfNum [("xs", 12)]).find? (·.1 = "5xl") = none
      ∧ (getScaleValue (scaleOfNum [("xs", 12)]) "5xl" = ScaleValue.num 5
        ∧ (resolveVariant { fontSize := .inl "5xl" }
            (scaleOfNum [("xs", 12)]) []).fontSize = renderNum 5 ++ "px") :=
  ⟨by with_unfolding_all rfl,
   (getScaleValue_numeric_key _ "5xl" (by with_unfolding_all rfl)).1 5
     (by with_unfolding_all rfl)⟩

/-! ## C3: monotonicity of the modular scale -/

/-- `round2` is monotone. -/
theorem round2_mono {a b : ℚ} (h : a ≤ b) : round2 a ≤ round2 b := by
  unfold round2 jsRound
  have hf : ⌊a * 100 + 1/2⌋ ≤ ⌊b * 100 + 1/2⌋ := Int.floor_le_floor (by linarith)
  have : ((⌊a * 100 + 1/2⌋ : ℤ) : ℚ) ≤ ((⌊b * 100 + 1/2⌋ : ℤ) : ℚ) :=
    Int.cast_le.mpr hf
  linarith

/-- Claim C3, amended: for `base > 0` and `ratio > 1` the ten modular
scale values are monotonically non-decreasing in step order (the
underlying unrounded values are strictly increasing, but rounding to two
decimals can collapse adjacent steps). -/
theorem calculateModularScale_mono (config : ModularScaleConfig)
    (hb : 0 < config.base) (hr : 1 < config.ratio) :
    List.Chain' (· ≤ ·) ((calculateModularScale config).map Prod.snd) := by
  have hstep : ∀ m n : ℤ, m ≤ n →
      round2 (calculateModularStep config.base config.ratio m)
        ≤ round2 (calculateModularStep config.base config.ratio n) := by
    intro m n hmn
    apply round2_mono
    unfold calculateModularStep
    exact mul_le_mul_of_nonneg_left (zpow_le_zpow_right₀ (le_of_lt hr) hmn)
      (le_of_lt hb)
  have hlist : (calculateModularScale config).map Prod.snd
      = [round2 (calculateModularStep config.base config.ratio (-2)),
         round2 (calculateModularStep config.base config.ratio (-1)),
         round2 (calculateModularStep config.base config.ratio 0),
         round2 (calculateModularStep config.base config.ratio 1),
         round2 (calculateModularStep config.base config.ratio 2),
         round2 (calculateModularStep config.base config.ratio 3),
         round2 (calculateModularStep config.base config.ratio 4),
         round2 (calculateModularStep config.base config.ratio 5),
         round2 (calculateModularStep config.base config.ratio 6),
         round2 (calculateModularStep config.base config.ratio 7)] := by
    simp [calculateModularScale, DEFAULT_STEP_NAMES, List.enum, List.enumFrom]
  rw [hlist]
  simp only [List.chain'_cons, List.chain'_singleton, and_true]
  refine ⟨?_, ?_, ?_, ?_, ?_, ?_, ?_, ?_, ?_⟩ <;> exact hstep _ _ (by norm_num)

/-- Witness for C3 (amended) at `base = 16`, `ratio = 5/4`. -/
theorem calculateModularScale_mono_witness :
    (0:ℚ) < 16 ∧ (1:ℚ) < 5/4
      ∧ List.Chain' (· ≤ ·)
        ((calculateModularScale { base := 16, ratio := 5/4 }).map Prod.snd) :=
  ⟨by norm_num, by norm_num,
   calculateModularScale_mono _ (by norm_num) (by norm_num)⟩

/-- Counterexample to C3 as stated: at `base = 16`, `ratio = 1.0001 > 1`
the rounded values are not strictly increasing (`xs` and `sm` both round
to 16). -/
theorem calculateModularScale_strict_counterexample :
    (0:ℚ) < 16 ∧ (1:ℚ) < 10001/10000
      ∧ ¬ List.Chain' (· < ·)
          ((calculateModularScale { base := 16, ratio := 10001/10000 }).map
            Prod.snd) := by
  refine ⟨by norm_num, by norm_num, ?_⟩
  have h : (calculateModularScale { base := 16, ratio := 10001/10000 }).map
      Prod.snd
      = [16, 16, 16, 16, 16, 16, 1601/100, 1601/100, 1601/100, 1601/100] := by
    with_unfolding_all rfl
  rw [h]
  intro hc
  rw [List.chain'_cons] at hc
  exact absurd hc.1 (by norm_num)

/-! ## C5: idempotence of `normalizeMetrics` at its own units/em -/

/-- `Math.round` of an integer rational is that integer. -/
theorem jsRound_eq_self {q : ℚ} (h : q.den = 1) : ((jsRound q : ℤ) : ℚ) = q := by
  have hq : ((q.num : ℚ)) = q := by
    rw [← Rat.num_div_den q, h]
    simp
  rw [← hq]
  unfold jsRound
  rw [add_comm, Int.floor_add_int]
  norm_num

/-- Claim C5, amended: `normalizeMetrics` at the metrics' own
`unitsPerEm` is the identity provided the linear fields are integers,
`unitsPerEm > 0`, and the optional `capHeight`/`xHeight` are (when
present) nonzero integers — a present-but-zero optional field is dropped
by the JS truthiness check, so zero must be excluded. -/
theorem normalizeMetrics_self (m : FontMetrics) (hu : 0 < m.unitsPerEm)
    (ha : m.ascent.den = 1) (hd : m.descent.den = 1) (hg : m.lineGap.den = 1)
    (hc : ∀ c, m.capHeight = some c → c.den = 1 ∧ c ≠ 0)
    (hx : ∀ x, m.xHeight = some x → x.den = 1 ∧ x ≠ 0) :
    normalizeMetrics m m.unitsPerEm = m := by
  have hscale : m.unitsPerEm / m.unitsPerEm = 1 := div_self (ne_of_gt hu)
  unfold normalizeMetrics
  simp only [hscale, mul_one]
  obtain ⟨fam, asc, desc, lg, upm, cap, xh⟩ := m
  simp only at ha hd hg hc hx ⊢
  congr 1
  · exact jsRound_eq_self ha
  · exact jsRound_eq_self hd
  · exact jsRound_eq_self hg
  · cases cap with
    | none => rfl
    | some c =>
      obtain ⟨hden, hne⟩ := hc c rfl
      simp [hne, jsRound_eq_self hden]
  · cases xh with
    | none => rfl
    | some x =>
      obtain ⟨hden, hne⟩ := hx x rfl
      simp [hne, jsRound_eq_self hden]

/-- Witness for C5 (amended) at a concrete metrics record. -/
theorem normalizeMetrics_self_witness :
    normalizeMetrics integerMetrics integerMetrics.unitsPerEm = integerMetrics :=
  normalizeMetrics_self _ (by norm_num [integerMetrics])
    (by with_unfolding_all rfl) (by with_unfolding_all rfl)
    (by with_unfolding_all rfl)
    (fun c hcv => by
      rw [show integerMetrics.capHeight = some 700 from rfl] at hcv
      injection hcv with h
      subst h
      exact ⟨by with_unfolding_all rfl, by norm_num⟩)
    (fun x hxv => by
      rw [show integerMetrics.xHeight = some 500 from rfl] at hxv
      injection hxv with h
      subst h
      exact ⟨by with_unfolding_all rfl, by norm_num⟩)

/-- Counterexample to C5 as stated: a record with integer fields,
positive `unitsPerEm` and a present `xHeight = 0` is not returned
unchanged — the zero x-height is dropped (`undefined`) by normalization. -/
theorem normalizeMetrics_self_counterexample :
    (0:ℚ) < zeroXHeightMetrics.unitsPerEm
      ∧ zeroXHeightMetrics.ascent.den = 1
      ∧ zeroXHeightMetrics.descent.den = 1
      ∧ zeroXHeightMetrics.lineGap.den = 1
      ∧ zeroXHeightMetrics.xHeight = some 0
      ∧ normalizeMetrics zeroXHeightMetrics zeroXHeightMetrics.unitsPerEm
        ≠ zeroXHeightMetrics := by
  refine ⟨by norm_num [zeroXHeightMetrics], by with_unfolding_all rfl,
    by with_unfolding_all rfl, by with_unfolding_all rfl, rfl, ?_⟩
  intro h
  have h2 := congrArg FontMetrics.xHeight h
  rw [show (normalizeMetrics zeroXHeightMetrics
        zeroXHeightMetrics.unitsPerEm).xHeight = none from by
      with_unfolding_all rfl] at h2
  rw [show zeroXHeightMetrics.xHeight = some 0 from rfl] at h2
  exact Option.noConfusion h2

/-! ## C6: `findBestMatchingFallback` returns the first minimal-score entry -/

/-- Unfolding of the fold step at a finite best score. -/
theorem fallbackFoldStep_some (m : FontMetrics) (nb : String) (sb : ℚ)
    (x : String × FontMetrics) :
    fallbackFoldStep m (nb, some sb) x
      = if fallbackScore m x.2 < sb then (x.1, some (fallbackScore m x.2))
        else (nb, some sb) := rfl

/-- Unfolding of the fold step at the initial infinite best score. -/
theorem fallbackFoldStep_none (m : FontMetrics) (nb : String)
    (x : String × FontMetrics) :
    fallbackFoldStep m (nb, none) x = (x.1, some (fallbackScore m x.2)) := rfl

/-- Invariant of `findBestMatchingFallback`'s fold: starting from a
current best `(nb, sb)`, the fold returns the first strictly-improving
argmin of the remaining list, or keeps the current best. -/
theorem foldBest_spec (m : FontMetrics) :
    ∀ (l : List (String × FontMetrics)) (nb : String) (sb : ℚ),
      ∃ s : ℚ, (l.foldl (fallbackFoldStep m) (nb, some sb)).2 = some s
        ∧ s ≤ sb
        ∧ (∀ p ∈ l, s ≤ fallbackScore m p.2)
        ∧ (((l.foldl (fallbackFoldStep m) (nb, some sb)).1 = nb ∧ s = sb)
          ∨ ∃ l₁ p l₂, l = l₁ ++ p :: l₂
              ∧ (l.foldl (fallbackFoldStep m) (nb, some sb)).1 = p.1
              ∧ s = fallbackScore m p.2 ∧ s < sb
              ∧ ∀ q ∈ l₁, s < fallbackScore m q.2) := by
  intro l
  induction l with
  | nil =>
    intro nb sb
    exact ⟨sb, rfl, le_rfl, by simp, Or.inl ⟨rfl, rfl⟩⟩
  | cons x xs ih =>
    intro nb sb
    rw [List.foldl_cons, fallbackFoldStep_some]
    by_cases hlt : fallbackScore m x.2 < sb
    · rw [if_pos hlt]
      obtain ⟨s, h2, hle, hall, hcase⟩ := ih x.1 (fallbackScore m x.2)
      refine ⟨s, h2, le_trans hle (le_of_lt hlt), ?_, ?_⟩
      · intro p hp
        rcases List.mem_cons.mp hp with rfl | hp'
        · exact hle
        · exact hall p hp'
      · rcases hcase with ⟨h1, hs⟩ | ⟨l₁, p, l₂, hsplit, h1, hs, hlt2, hfirst⟩
        · exact Or.inr ⟨[], x, xs, rfl, h1, hs, hs ▸ hlt, by simp⟩
        · refine Or.inr ⟨x :: l₁, p, l₂, by rw [hsplit, List.cons_append], h1, hs,
            lt_trans hlt2 hlt, ?_⟩
          intro q hq
          rcases List.mem_cons.mp hq with rfl | hq'
          · exact hlt2
          · exact hfirst q hq'
    · rw [if_neg hlt]
      obtain ⟨s, h2, hle, hall, hcase⟩ := ih nb sb
      refine ⟨s, h2, hle, ?_, ?_⟩
      · intro p hp
        rcases List.mem_cons.mp hp with rfl | hp'
        · exact le_trans hle (not_lt.mp hlt)
        · exact hall p hp'
      · rcases hcase with ⟨h1, hs⟩ | ⟨l₁, p, l₂, hsplit, h1, hs, hlt2, hfirst⟩
        · exact Or.inl ⟨h1, hs⟩
        · refine Or.inr ⟨x :: l₁, p, l₂, by rw [hsplit, List.cons_append], h1, hs, hlt2, ?_⟩
          intro q hq
          rcases List.mem_cons.mp hq with rfl | hq'
          · exact lt_of_lt_of_le hlt2 (not_lt.mp hlt)
          · exact hfirst q hq'

/-- The fold over a nonempty table, seeded with its head, returns the
first entry of minimal score. -/
theorem foldBest_main (m : FontMetrics) (hd : String × FontMetrics)
    (rest : List (String × FontMetrics)) :
    ∃ l₁ p l₂, hd :: rest = l₁ ++ p :: l₂
      ∧ (rest.foldl (fallbackFoldStep m) (hd.1, some (fallbackScore m hd.2))).1
        = p.1
      ∧ (∀ q ∈ hd :: rest, fallbackScore m p.2 ≤ fallbackScore m q.2)
      ∧ ∀ q ∈ l₁, fallbackScore m p.2 < fallbackScore m q.2 := by
  obtain ⟨s, _, hle, hall, hcase⟩ := foldBest_spec m rest hd.1 (fallbackScore m hd.2)
  rcases hcase with ⟨h1, hs⟩ | ⟨l₁, p, l₂, hsplit, h1, hs, hlt2, hfirst⟩
  · refine ⟨[], hd, rest, rfl, h1, ?_, by simp⟩
    intro q hq
    rcases List.mem_cons.mp hq with rfl | hq'
    · exact le_rfl
    · exact hs ▸ hall q hq'
  · refine ⟨hd :: l₁, p, l₂, by rw [hsplit, List.cons_append], h1, ?_, ?_⟩
    · intro q hq
      rcases List.mem_cons.mp hq with rfl | hq'
      · exact hs ▸ le_of_lt hlt2
      · exact hs ▸ hall q hq'
    · intro q hq
      rcases List.mem_cons.mp hq with rfl | hq'
      · exact hs ▸ hlt2
      · exact hs ▸ hfirst q hq'

/-- Claim C6, amended: `findBestMatchingFallback` returns the name of
the table entry minimizing `|Δascent| + |Δdescent| + 2·|ΔxHeight|` (both
sides normalized to 1000 units/em, where an x-height that is missing *or
whose normalized value is zero* — JS falsy — defaults to 500), with ties
broken in favor of the first entry in table order; in particular the
result is always a key of the table.  As written (defaulting only a
missing x-height) the claim fails; see the counterexample. -/
theorem findBestMatchingFallback_minimizes (m : FontMetrics) :
    findBestMatchingFallback m ∈ SYSTEM_FONT_METRICS.map Prod.fst
      ∧ ∃ l₁ p l₂, SYSTEM_FONT_METRICS = l₁ ++ p :: l₂
        ∧ findBestMatchingFallback m = p.1
        ∧ (∀ q ∈ SYSTEM_FONT_METRICS, fallbackScore m p.2 ≤ fallbackScore m q.2)
        ∧ ∀ q ∈ l₁, fallbackScore m p.2 < fallbackScore m q.2 := by
  have htab : SYSTEM_FONT_METRICS
      = SYSTEM_FONT_METRICS.headD ("Arial", createDefaultMetrics "Arial")
        :: SYSTEM_FONT_METRICS.tail := rfl
  have hfold : findBestMatchingFallback m
      = (SYSTEM_FONT_METRICS.tail.foldl (fallbackFoldStep m)
          ((SYSTEM_FONT_METRICS.headD
              ("Arial", createDefaultMetrics "Arial")).1,
            some (fallbackScore m
              (SYSTEM_FONT_METRICS.headD
                ("Arial", createDefaultMetrics "Arial")).2))).1 := rfl
  obtain ⟨l₁, p, l₂, hsplit, h1, hall, hfirst⟩ :=
    foldBest_main m
      (SYSTEM_FONT_METRICS.headD ("Arial", createDefaultMetrics "Arial"))
      SYSTEM_FONT_METRICS.tail
  rw [← htab] at hsplit hall
  refine ⟨?_, l₁, p, l₂, hsplit, hfold.trans h1, hall, hfirst⟩
  rw [hfold, h1]
  exact List.mem_map_of_mem Prod.fst (by rw [hsplit]; simp)

/-- Counterexample to C6 as stated: at a present x-height of 1 design
unit with 2048 units/em (normalizing to a present zero), the program
returns "system-ui", yet under the claim's score — which defaults only a
*missing* x-height to 500 — the table entry "Courier New" scores 1422,
strictly less than "system-ui"'s 1612, so the returned name does not
minimize the claim's score. -/
theorem findBestMatchingFallback_claim_counterexample :
    findBestMatchingFallback tinyXHeightMetrics = "system-ui"
      ∧ (SYSTEM_FONT_METRICS.find? (·.1 = "Courier New")).map
          (fun p => specFallbackScoreClaim tinyXHeightMetrics p.2) = some 1422
      ∧ (SYSTEM_FONT_METRICS.find? (·.1 = "system-ui")).map
          (fun p => specFallbackScoreClaim tinyXHeightMetrics p.2) = some 1612
      ∧ (1422 : ℚ) < 1612 :=
  ⟨by with_unfolding_all rfl, by with_unfolding_all rfl,
   by with_unfolding_all rfl, by norm_num⟩

/-! ## C1: `calculateFallbackAdjustments` computes the spec formulas -/

/-- The JS-truthiness x-height default agrees with "default when the
normalized value is missing or zero": dropping a zero input before
rounding and defaulting a zero result after rounding coincide. -/
theorem xHeightOr500_normalize (o : Option ℚ) (scale : ℚ) :
    xHeightOr500 (o.bind fun x =>
        if x = 0 then none else some ((jsRound (x * scale) : ℚ)))
      = xHeightOr500 (o.map fun x => ((jsRound (x * scale) : ℚ))) := by
  cases o with
  | none => rfl
  | some x =>
    by_cases hx : x = 0
    · subst hx
      norm_num [xHeightOr500, jsRound]
    · simp [hx, xHeightOr500]

/-- Claim C1, amended: `calculateFallbackAdjustments` normalizes both
sides to 1000 units/em and returns the four formatted percentages of the
claim, except that the x-height in `sizeAdjust` defaults to 500 whenever
it is missing *or its normalized value is zero* (JS truthiness), not only
when it is missing. -/
theorem calculateFallbackAdjustments_eq_spec (m : FontMetrics) (fb : String) :
    calculateFallbackAdjustments m fb = specFallbackAdjustmentsAmended m fb := by
  simp only [calculateFallbackAdjustments, specFallbackAdjustmentsAmended,
    normalizeMetrics, specNormalizeMetrics]
  rw [FallbackAdjustments.mk.injEq]
  refine ⟨rfl, rfl, rfl, ?_⟩
  rw [xHeightOr500_normalize, xHeightOr500_normalize]

/-- Counterexample to C1 as stated: at a present x-height of 1 design
unit with 2048 units/em (normalizing to 0), the code returns the default
`500 / 519 · 100 = 96.34%` while the claim's formula (defaulting only a
*missing* x-height) yields `0.00%`. -/
theorem calculateFallbackAdjustments_claim_counterexample :
    (calculateFallbackAdjustments tinyXHeightMetrics "Arial").sizeAdjust
        = "96.34%"
      ∧ (specFallbackAdjustmentsClaim tinyXHeightMetrics "Arial").sizeAdjust
        = "0.00%"
      ∧ calculateFallbackAdjustments tinyXHeightMetrics "Arial"
        ≠ specFallbackAdjustmentsClaim tinyXHeightMetrics "Arial" := by
  refine ⟨by with_unfolding_all rfl, by with_unfolding_all rfl, ?_⟩
  intro h
  have h2 := congrArg FallbackAdjustments.sizeAdjust h
  rw [show (calculateFallbackAdjustments tinyXHeightMetrics "Arial").sizeAdjust
        = "96.34%" from by with_unfolding_all rfl,
      show (specFallbackAdjustmentsClaim tinyXHeightMetrics "Arial").sizeAdjust
        = "0.00%" from by with_unfolding_all rfl] at h2
  exact absurd h2 (by decide)

/-! ## Digit-string lemmas

Correctness of the decimal rendering (`natChars`, `padDigits`) and of the
character-level parser (`takeDigits`, `jsParseFloat`), used to settle the
round-trip claims C4 and C7. -/

/-- The fuel-based digit function agrees with `Nat.digits` when given
enough fuel. -/
theorem digitsGo_eq (fuel : ℕ) :
    ∀ n : ℕ, n ≤ fuel → digitsGo fuel n = Nat.digits 10 n := by
  induction fuel with
  | zero =>
    intro n hn
    interval_cases n
    simp [digitsGo]
  | succ f ih =>
    intro n hn
    match n with
    | 0 => simp [digitsGo]
    | m + 1 =>
      rw [digitsGo, Nat.digits_def' (by norm_num : (1:ℕ) < 10) (Nat.succ_pos m),
        ih ((m + 1) / 10)
          (le_trans (Nat.le_of_lt_succ (Nat.div_lt_self (Nat.succ_pos m)
            (by norm_num))) (Nat.lt_succ_iff.mp hn))]

/-- `natDigitsLE` is `Nat.digits 10`. -/
theorem natDigitsLE_eq (n : ℕ) : natDigitsLE n = Nat.digits 10 n :=
  digitsGo_eq n n le_rfl

/-- `charVal` inverts `Nat.digitChar` on decimal digits. -/
theorem charVal_digitChar {d : ℕ} (h : d < 10) :
    charVal (Nat.digitChar d) = d := by
  interval_cases d <;> decide

/-- Decimal digit characters satisfy `Char.isDigit`. -/
theorem isDigit_digitChar {d : ℕ} (h : d < 10) :
    (Nat.digitChar d).isDigit = true := by
  interval_cases d <;> decide

/-- `natChars` is never empty. -/
theorem natChars_ne_nil (n : ℕ) : natChars n ≠ [] := by
  unfold natChars
  by_cases h : n = 0
  · simp [h]
  · simp [h, natDigitsLE_eq, Nat.digits_ne_nil_iff_ne_zero]

/-- All characters of `natChars` are digits. -/
theorem natChars_isDigit (n : ℕ) : ∀ c ∈ natChars n, c.isDigit = true := by
  unfold natChars
  by_cases h : n = 0
  · simp [h]
  · simp only [h, if_false, natDigitsLE_eq, List.mem_reverse, List.mem_map]
    rintro c ⟨d, hd, rfl⟩
    exact isDigit_digitChar (Nat.digits_lt_base (by norm_num) hd)

/-- `natChars` renders the value it was given. -/
theorem natOfBE_natChars (n : ℕ) : natOfBE ((natChars n).map charVal) = n := by
  unfold natChars
  by_cases h : n = 0
  · subst h
    decide
  · simp only [h, if_false, natDigitsLE_eq]
    rw [List.map_reverse, List.map_map]
    have hmap : (Nat.digits 10 n).map (charVal ∘ Nat.digitChar)
        = Nat.digits 10 n :=
      (List.map_congr_left fun d hd =>
        charVal_digitChar (Nat.digits_lt_base (by norm_num) hd)).trans
        (List.map_id _)
    rw [hmap]
    unfold natOfBE
    rw [List.reverse_reverse, Nat.ofDigits_digits]

/-- `Nat.ofDigits` of a run of zeros is zero. -/
theorem ofDigits_replicate_zero (j : ℕ) :
    Nat.ofDigits 10 (List.replicate j 0) = 0 := by
  induction j with
  | zero => rfl
  | succ i ih => simp [List.replicate_succ, Nat.ofDigits_cons, ih]

/-- The length of the digits of `f < 10^k` is at most `k`. -/
theorem digits_length_le {k f : ℕ} (h : f < 10 ^ k) :
    (Nat.digits 10 f).length ≤ k := by
  by_cases hf : f = 0
  · simp [hf]
  · rw [Nat.digits_len 10 f (by norm_num) hf]
    have := Nat.log_lt_of_lt_pow hf h
    omega

/-- `padDigits k f` has exactly `k` characters when `f < 10^k`. -/
theorem padDigits_length {k f : ℕ} (h : f < 10 ^ k) :
    (padDigits k f).length = k := by
  have hlen := digits_length_le h
  simp only [padDigits, natDigitsLE_eq, List.length_append,
    List.length_replicate, List.length_reverse, List.length_map]
  omega

/-- All characters of `padDigits` are digits. -/
theorem padDigits_isDigit (k f : ℕ) : ∀ c ∈ padDigits k f, c.isDigit = true := by
  simp only [padDigits, natDigitsLE_eq, List.mem_append, List.mem_replicate,
    List.mem_reverse, List.mem_map]
  rintro c (⟨-, rfl⟩ | ⟨d, hd, rfl⟩)
  · decide
  · exact isDigit_digitChar (Nat.digits_lt_base (by norm_num) hd)

/-- `padDigits k f` renders `f` (big-endian, with leading zeros). -/
theorem natOfBE_padDigits (k f : ℕ) :
    natOfBE ((padDigits k f).map charVal) = f := by
  simp only [padDigits, natDigitsLE_eq]
  rw [List.map_append, List.map_replicate, List.map_reverse, List.map_map]
  have hmap : (Nat.digits 10 f).map (charVal ∘ Nat.digitChar)
      = Nat.digits 10 f :=
    (List.map_congr_left fun d hd =>
      charVal_digitChar (Nat.digits_lt_base (by norm_num) hd)).trans
      (List.map_id _)
  rw [hmap, show charVal '0' = 0 from rfl]
  unfold natOfBE
  rw [List.reverse_append, List.reverse_reverse, List.reverse_replicate,
    Nat.ofDigits_append, Nat.ofDigits_digits, ofDigits_replicate_zero]
  simp

/-- `takeDigits` splits a leading digit run off, stopping at the first
non-digit (or the end). -/
theorem takeDigits_append (cs rest : List Char)
    (h : ∀ c ∈ cs, c.isDigit = true)
    (h2 : rest = [] ∨ ∃ c t, rest = c :: t ∧ c.isDigit = false) :
    takeDigits (cs ++ rest) = (cs.map charVal, rest) := by
  induction cs with
  | nil =>
    rcases h2 with rfl | ⟨c, t, rfl, hc⟩
    · rfl
    · simp [takeDigits, hc]
  | cons c cs' ih =>
    have hc : c.isDigit = true := h c (List.mem_cons_self c cs')
    rw [List.cons_append, takeDigits, if_pos hc,
      ih (fun x hx => h x (List.mem_cons_of_mem c hx))]
    rfl

/-- `splitSign` leaves a digit-headed list untouched. -/
theorem splitSign_of_head_digit (c : Char) (cs : List Char)
    (h : c.isDigit = true) : splitSign (c :: cs) = (1, c :: cs) := by
  have h1 : c ≠ '-' := by
    intro hc
    subst hc
    exact absurd h (by decide)
  have h2 : c ≠ '+' := by
    intro hc
    subst hc
    exact absurd h (by decide)
  simp [splitSign, h1, h2]

/-- `splitSign` leaves a rendered natural number untouched. -/
theorem splitSign_natChars (a : ℕ) (t : List Char) :
    splitSign (natChars a ++ t) = (1, natChars a ++ t) := by
  obtain ⟨c₀, cr, hnc⟩ : ∃ c₀ cr, natChars a = c₀ :: cr := by
    cases h : natChars a with
    | nil => exact absurd h (natChars_ne_nil a)
    | cons x xs => exact ⟨x, xs, rfl⟩
  have hc₀ : c₀.isDigit = true :=
    natChars_isDigit a c₀ (by rw [hnc]; exact List.mem_cons_self _ _)
  rw [hnc, List.cons_append, splitSign_of_head_digit c₀ _ hc₀]

/-- `jsParseFloat` on `natChars a ++ '.' :: F ++ rest` with `F` a digit
run and `rest` stopping the parse: the value is `a` plus the fraction. -/
theorem jsParseFloat_int_frac (a : ℕ) (F rest : List Char)
    (hF : ∀ c ∈ F, c.isDigit = true)
    (hrest : rest = [] ∨ ∃ c t, rest = c :: t ∧ c.isDigit = false
      ∧ c ≠ '.' ∧ c ≠ 'e' ∧ c ≠ 'E') :
    jsParseFloat ⟨natChars a ++ '.' :: (F ++ rest)⟩
      = some ((a : ℚ) + (natOfBE (F.map charVal) : ℚ) / 10 ^ F.length) := by
  have htake1 : takeDigits (natChars a ++ '.' :: (F ++ rest))
      = ((natChars a).map charVal, '.' :: (F ++ rest)) :=
    takeDigits_append _ _ (natChars_isDigit a)
      (Or.inr ⟨'.', _, rfl, by decide⟩)
  have hrest' : rest = [] ∨ ∃ c t, rest = c :: t ∧ c.isDigit = false := by
    rcases hrest with rfl | ⟨c, t, rfl, hcd, -, -, -⟩
    · exact Or.inl rfl
    · exact Or.inr ⟨c, t, rfl, hcd⟩
  have htake2 : takeDigits (F ++ rest) = (F.map charVal, rest) :=
    takeDigits_append _ _ hF hrest'
  have hne : ((natChars a).map charVal).isEmpty = false := by
    cases h : natChars a with
    | nil => exact absurd h (natChars_ne_nil a)
    | cons x xs => rfl
  have hexpe : ¬ rest.head? = some 'e' := by
    rcases hrest with rfl | ⟨c, t, rfl, -, -, hce, -⟩ <;> simp_all
  have hexpE : ¬ rest.head? = some 'E' := by
    rcases hrest with rfl | ⟨c, t, rfl, -, -, -, hcE⟩ <;> simp_all
  unfold jsParseFloat
  simp only [show (⟨natChars a ++ '.' :: (F ++ rest)⟩ : String).data
      = natChars a ++ '.' :: (F ++ rest) from rfl,
    splitSign_natChars, htake1, htake2, List.head?_cons, List.tail_cons,
    hne, natOfBE_natChars, List.length_map]
  simp [hexpe, hexpE, hne, natOfBE_natChars]

/-- `jsParseFloat` on `natChars a ++ rest` with `rest` stopping the
parse: the value is `a`. -/
theorem jsParseFloat_int (a : ℕ) (rest : List Char)
    (hrest : rest = [] ∨ ∃ c t, rest = c :: t ∧ c.isDigit = false
      ∧ c ≠ '.' ∧ c ≠ 'e' ∧ c ≠ 'E') :
    jsParseFloat ⟨natChars a ++ rest⟩ = some (a : ℚ) := by
  have hrest' : rest = [] ∨ ∃ c t, rest = c :: t ∧ c.isDigit = false := by
    rcases hrest with rfl | ⟨c, t, rfl, hcd, -, -, -⟩
    · exact Or.inl rfl
    · exact Or.inr ⟨c, t, rfl, hcd⟩
  have htake1 : takeDigits (natChars a ++ rest)
      = ((natChars a).map charVal, rest) :=
    takeDigits_append _ _ (natChars_isDigit a) hrest'
  have hne : ((natChars a).map charVal).isEmpty = false := by
    cases h : natChars a with
    | nil => exact absurd h (natChars_ne_nil a)
    | cons x xs => rfl
  have hdot : ¬ rest.head? = some '.' := by
    rcases hrest with rfl | ⟨c, t, rfl, -, hcd, -, -⟩ <;> simp_all
  have hexpe : ¬ rest.head? = some 'e' := by
    rcases hrest with rfl | ⟨c, t, rfl, -, -, hce, -⟩ <;> simp_all
  have hexpE : ¬ rest.head? = some 'E' := by
    rcases hrest with rfl | ⟨c, t, rfl, -, -, -, hcE⟩ <;> simp_all
  unfold jsParseFloat
  simp only [show (⟨natChars a ++ rest⟩ : String).data = natChars a ++ rest
      from rfl,
    splitSign_natChars, htake1]
  rw [if_neg hdot]
  simp [hexpe, hexpE, hne, natOfBE_natChars, show natOfBE [] = 0 from rfl]

/-- `Math.round` preserves nonnegativity. -/
theorem jsRound_nonneg {q : ℚ} (h : 0 ≤ q) : 0 ≤ jsRound q := by
  unfold jsRound
  exact Int.floor_nonneg.mpr (by linarith)

/-- Parsing a `toFixed` rendering (plus any stopping tail) recovers the
rounded value. -/
theorem parse_toFixedMag (k : ℕ) (q : ℚ) (rest : List Char)
    (hrest : rest = [] ∨ ∃ c t, rest = c :: t ∧ c.isDigit = false
      ∧ c ≠ '.' ∧ c ≠ 'e' ∧ c ≠ 'E') :
    jsParseFloat ⟨toFixedMag k q ++ rest⟩
      = some (((jsRound (q * 10 ^ k)).toNat : ℚ) / 10 ^ k) := by
  unfold toFixedMag
  rw [List.append_assoc, List.cons_append]
  rw [jsParseFloat_int_frac ((jsRound (q * 10 ^ k)).toNat / 10 ^ k)
    (padDigits k ((jsRound (q * 10 ^ k)).toNat % 10 ^ k)) rest
    (padDigits_isDigit _ _) hrest]
  congr 1
  set n := (jsRound (q * 10 ^ k)).toNat with hn
  have hmod : n % 10 ^ k < 10 ^ k := Nat.mod_lt _ (by positivity)
  rw [natOfBE_padDigits, padDigits_length hmod]
  have h2 : ((10 : ℚ) ^ k) * ((n / 10 ^ k : ℕ) : ℚ) + ((n % 10 ^ k : ℕ) : ℚ)
      = (n : ℚ) := by
    exact_mod_cast Nat.div_add_mod n (10 ^ k)
  field_simp
  linarith

/-- Appending `"%"` makes a string end with `"%"`. -/
theorem endsWithStr_percent (s : String) : endsWithStr (s ++ "%") "%" = true := by
  unfold endsWithStr
  rw [String.data_append]
  simp [List.isPrefixOf]

/-- A `toFixed(2)` percentage of a nonneg value parses to a nonneg value
and ends with `%`. -/
theorem percent_output_ok (val : ℚ) (hval : 0 ≤ val) :
    (∃ v : ℚ, jsParseFloat (jsToFixed 2 val ++ "%") = some v ∧ 0 ≤ v)
      ∧ endsWithStr (jsToFixed 2 val ++ "%") "%" = true := by
  refine ⟨⟨((jsRound (val * 10 ^ 2)).toNat : ℚ) / 10 ^ 2, ?_, by positivity⟩,
    endsWithStr_percent _⟩
  unfold jsToFixed
  rw [if_neg (not_lt.mpr hval)]
  rw [show ((⟨toFixedMag 2 val⟩ : String) ++ "%") = ⟨toFixedMag 2 val ++ ['%']⟩
    from rfl]
  exact parse_toFixedMag 2 val ['%']
    (Or.inr ⟨'%', [], rfl, by decide, by decide, by decide, by decide⟩)

/-- `xHeightOr500` is positive whenever the optional value, if present,
is nonnegative. -/
theorem xHeightOr500_pos (o : Option ℚ) (h : ∀ r, o = some r → 0 ≤ r) :
    0 < xHeightOr500 o := by
  cases o with
  | none => norm_num [xHeightOr500]
  | some v =>
    by_cases hv : v = 0
    · norm_num [xHeightOr500, hv]
    · have hv0 := h v rfl
      simp only [xHeightOr500, if_neg hv]
      exact lt_of_le_of_ne hv0 (Ne.symm hv)

/-- A successful `getSystemFontMetrics` lookup returns a table entry. -/
theorem getSystemFontMetrics_mem {fb : String} {r : FontMetrics}
    (h : getSystemFontMetrics fb = some r) :
    ∃ p ∈ SYSTEM_FONT_METRICS, r = p.2 := by
  unfold getSystemFontMetrics at h
  split at h
  · next p hp =>
    exact ⟨p, List.mem_of_find?_eq_some hp, (Option.some.injEq _ _ ▸ h).symm⟩
  · dsimp only at h
    split at h
    · next p hp =>
      exact ⟨p, List.mem_of_find?_eq_some hp, (Option.some.injEq _ _ ▸ h).symm⟩
    · split at h
      · next p hp =>
        exact ⟨p, List.mem_of_find?_eq_some hp, (Option.some.injEq _ _ ▸ h).symm⟩
      · exact absurd h (by simp)

/-- Every table entry's normalized x-height (with the 500 default) is
positive. -/
theorem table_xHeightOr500_pos :
    ∀ p ∈ SYSTEM_FONT_METRICS,
      0 < xHeightOr500 ((normalizeMetrics p.2 1000).xHeight) := by
  have h : (SYSTEM_FONT_METRICS.all fun p =>
      decide (0 < xHeightOr500 ((normalizeMetrics p.2 1000).xHeight))) = true := by
    with_unfolding_all rfl
  intro p hp
  exact of_decide_eq_true (List.all_eq_true.mp h p hp)

/-- The synthesized default metrics' normalized x-height is 500. -/
theorem default_xHeightOr500_pos (fb : String) :
    0 < xHeightOr500 ((normalizeMetrics (createDefaultMetrics fb) 1000).xHeight) := by
  have h : (normalizeMetrics (createDefaultMetrics fb) 1000).xHeight
      = some ((jsRound ((500 : ℚ) * (1000 / 1000)) : ℤ) : ℚ) := by
    norm_num [normalizeMetrics, createDefaultMetrics]
  have h500 : jsRound ((500 : ℚ) * (1000 / 1000)) = 500 := by
    with_unfolding_all rfl
  rw [h, h500]
  norm_num [xHeightOr500]

/-- The fallback side of `calculateFallbackAdjustments` always has a
positive (defaulted) x-height, whatever the fallback name resolves to. -/
theorem fallback_xHeightOr500_pos (fb : String) :
    0 < xHeightOr500 ((normalizeMetrics
      ((getSystemFontMetrics fb).getD (createDefaultMetrics fb)) 1000).xHeight) := by
  cases hg : getSystemFontMetrics fb with
  | none =>
    rw [Option.getD_none]
    exact default_xHeightOr500_pos fb
  | some r =>
    rw [Option.getD_some]
    obtain ⟨p, hp, rfl⟩ := getSystemFontMetrics_mem hg
    exact table_xHeightOr500_pos p hp

/-- Claim C7, amended: for metrics with positive `unitsPerEm`,
nonnegative `lineGap` and nonnegative x-height (when present), each of
the four outputs of `calculateFallbackAdjustments` parses to a
nonnegative numeric value and ends with `'%'`.  (Without these
hypotheses a negative `lineGap` or x-height makes `lineGapOverride` or
`sizeAdjust` negative.) -/
theorem calculateFallbackAdjustments_nonneg (m : FontMetrics) (fb : String)
    (hu : 0 < m.unitsPerEm) (hg : 0 ≤ m.lineGap)
    (hx : ∀ x, m.xHeight = some x → 0 ≤ x) :
    ∀ o ∈ [(calculateFallbackAdjustments m fb).ascentOverride,
           (calculateFallbackAdjustments m fb).descentOverride,
           (calculateFallbackAdjustments m fb).lineGapOverride,
           (calculateFallbackAdjustments m fb).sizeAdjust],
      (∃ v : ℚ, jsParseFloat o = some v ∧ 0 ≤ v) ∧ endsWithStr o "%" = true := by
  have hascent : (calculateFallbackAdjustments m fb).ascentOverride
      = jsToFixed 2 (|(normalizeMetrics m 1000).ascent| / 1000 * 100) ++ "%" := rfl
  have hdescent : (calculateFallbackAdjustments m fb).descentOverride
      = jsToFixed 2 (|(normalizeMetrics m 1000).descent| / 1000 * 100) ++ "%" := rfl
  have hlinegap : (calculateFallbackAdjustments m fb).lineGapOverride
      = jsToFixed 2 ((normalizeMetrics m 1000).lineGap / 1000 * 100) ++ "%" := rfl
  have hsize : (calculateFallbackAdjustments m fb).sizeAdjust
      = jsToFixed 2 (xHeightOr500 (normalizeMetrics m 1000).xHeight
          / xHeightOr500 ((normalizeMetrics
              ((getSystemFontMetrics fb).getD (createDefaultMetrics fb))
              1000).xHeight) * 100) ++ "%" := rfl
  have hlg : 0 ≤ (normalizeMetrics m 1000).lineGap := by
    rw [show (normalizeMetrics m 1000).lineGap
      = ((jsRound (m.lineGap * (1000 / m.unitsPerEm)) : ℤ) : ℚ) from rfl]
    have : 0 ≤ m.lineGap * (1000 / m.unitsPerEm) :=
      mul_nonneg hg (by positivity)
    exact_mod_cast jsRound_nonneg this
  have hxc : 0 < xHeightOr500 (normalizeMetrics m 1000).xHeight := by
    apply xHeightOr500_pos
    intro r hr
    rw [show (normalizeMetrics m 1000).xHeight
      = m.xHeight.bind fun x => if x = 0 then none
          else some ((jsRound (x * (1000 / m.unitsPerEm)) : ℤ) : ℚ) from rfl] at hr
    cases hxo : m.xHeight with
    | none =>
      rw [hxo] at hr
      exact Option.noConfusion hr
    | some x =>
      rw [hxo] at hr
      simp only [Option.bind] at hr
      by_cases hx0 : x = 0
      · rw [if_pos hx0] at hr
        exact Option.noConfusion hr
      · rw [if_neg hx0] at hr
        injection hr with hr2
        subst hr2
        have : 0 ≤ x * (1000 / m.unitsPerEm) :=
          mul_nonneg (hx x hxo) (by positivity)
        exact_mod_cast jsRound_nonneg this
  have hxf := fallback_xHeightOr500_pos fb
  intro o ho
  simp only [List.mem_cons, List.not_mem_nil, or_false] at ho
  rcases ho with rfl | rfl | rfl | rfl
  · rw [hascent]
    exact percent_output_ok _ (by positivity)
  · rw [hdescent]
    exact percent_output_ok _ (by positivity)
  · rw [hlinegap]
    exact percent_output_ok _ (by positivity)
  · rw [hsize]
    exact percent_output_ok _ (by positivity)

/-- Witness for C7 (amended) at a concrete metrics record and fallback. -/
theorem calculateFallbackAdjustments_nonneg_witness :
    (∃ v : ℚ, jsParseFloat
        (calculateFallbackAdjustments integerMetrics "Arial").sizeAdjust
        = some v ∧ 0 ≤ v)
      ∧ endsWithStr
          (calculateFallbackAdjustments integerMetrics "Arial").sizeAdjust "%"
        = true :=
  calculateFallbackAdjustments_nonneg integerMetrics "Arial"
    (by norm_num [integerMetrics])
    (by norm_num [integerMetrics])
    (fun x hxv => by
      rw [show integerMetrics.xHeight = some 500 from rfl] at hxv
      injection hxv with h
      subst h
      norm_num)
    (calculateFallbackAdjustments integerMetrics "Arial").sizeAdjust
    (List.mem_cons_of_mem _ (List.mem_cons_of_mem _
      (List.mem_cons_of_mem _ (List.mem_cons_self _ _))))

/-- Counterexample to C7 as stated: a negative line gap yields
`lineGapOverride = "-10.00%"`, which parses to the negative value −10. -/
theorem calculateFallbackAdjustments_nonneg_counterexample :
    (calculateFallbackAdjustments negativeLineGapMetrics "Arial").lineGapOverride
        = "-10.00%"
      ∧ jsParseFloat "-10.00%" = some (-10)
      ∧ ¬(0 ≤ (-10 : ℚ)) :=
  ⟨by with_unfolding_all rfl, by with_unfolding_all rfl, by norm_num⟩

/-! ## C4: round-trip of `calculateFluidSize` through `parseClampExpression` -/

/-- Every character list is all zeros, or splits at the last nonzero
character counted from the end of the zeros prefix. -/
theorem all_zero_or_split (l : List Char) :
    (∀ c ∈ l, c = '0')
      ∨ ∃ z c w, l = z ++ c :: w ∧ (∀ x ∈ z, x = '0') ∧ c ≠ '0' := by
  induction l with
  | nil => exact Or.inl (by simp)
  | cons a t ih =>
    by_cases ha : a = '0'
    · rcases ih with h | ⟨z, c, w, rfl, hz, hc⟩
      · refine Or.inl ?_
        intro x hx
        rcases List.mem_cons.mp hx with rfl | hx'
        · exact ha
        · exact h x hx'
      · refine Or.inr ⟨a :: z, c, w, by rw [List.cons_append], ?_, hc⟩
        intro x hx
        rcases List.mem_cons.mp hx with rfl | hx'
        · exact ha
        · exact hz x hx'
    · exact Or.inr ⟨[], a, t, rfl, by simp, ha⟩

/-- `dropWhile (= '0')` drops exactly a leading zero run. -/
theorem dropWhile_zeros_append (z r : List Char) (hz : ∀ c ∈ z, c = '0')
    (hr : r = [] ∨ ∃ c t, r = c :: t ∧ c ≠ '0') :
    (z ++ r).dropWhile (· = '0') = r := by
  induction z with
  | nil =>
    rcases hr with rfl | ⟨c, t, rfl, hc⟩
    · rfl
    · simp [List.dropWhile_cons, hc]
  | cons a t ih =>
    have ha : a = '0' := hz a (List.mem_cons_self a t)
    rw [List.cons_append, List.dropWhile_cons, if_pos (by simp [ha])]
    exact ih fun c hc => hz c (List.mem_cons_of_mem a hc)

/-- Appending trailing zeros multiplies a big-endian value by `10^j`. -/
theorem natOfBE_append_zeros (xs : List ℕ) (j : ℕ) :
    natOfBE (xs ++ List.replicate j 0) = natOfBE xs * 10 ^ j := by
  unfold natOfBE
  rw [List.reverse_append, List.reverse_replicate, Nat.ofDigits_append,
    ofDigits_replicate_zero, List.length_replicate]
  ring

/-- Digit characters are not `'.'`. -/
theorem isDigit_ne_dot {c : Char} (h : c.isDigit = true) : c ≠ '.' := by
  intro hc
  subst hc
  exact absurd h (by decide)

/-- Stripping trailing zeros from a `toFixed` rendering keeps the integer
part, keeps only digit/dot characters, and parses back to the exact
value. -/
theorem strip_toFixedMag (k : ℕ) (hk : 0 < k) (n : ℕ) :
    ∃ F : List Char,
      stripTrailingZeros ⟨natChars (n / 10 ^ k) ++ '.' :: padDigits k (n % 10 ^ k)⟩
        = ⟨natChars (n / 10 ^ k) ++ F⟩
      ∧ (∀ c ∈ F, isDigitOrDot c = true)
      ∧ jsParseFloat ⟨natChars (n / 10 ^ k) ++ F⟩
        = some (((n / 10 ^ k : ℕ) : ℚ) + ((n % 10 ^ k : ℕ) : ℚ) / 10 ^ k) := by
  set a := n / 10 ^ k with ha
  set f := n % 10 ^ k with hf
  have hmod : f < 10 ^ k := Nat.mod_lt _ (by positivity)
  have hpadlen : (padDigits k f).length = k := padDigits_length hmod
  have hrev : (natChars a ++ '.' :: padDigits k f).reverse
      = (padDigits k f).reverse ++ '.' :: (natChars a).reverse := by
    rw [List.reverse_append, List.reverse_cons, List.append_assoc,
      List.singleton_append]
  rcases all_zero_or_split (padDigits k f).reverse with hallz | ⟨z, c, w, hsplit, hz, hc⟩
  · -- the fraction is all zeros, so it is stripped entirely (dot included)
    have hf0 : f = 0 := by
      have hmap : (padDigits k f).map charVal
          = List.replicate ((padDigits k f).map charVal).length 0 := by
        apply List.eq_replicate_of_mem
        intro b hb
        obtain ⟨x, hx, rfl⟩ := List.mem_map.mp hb
        rw [hallz x (List.mem_reverse.mpr hx)]
        rfl
      have hv := natOfBE_padDigits k f
      rw [hmap] at hv
      unfold natOfBE at hv
      rw [List.reverse_replicate, ofDigits_replicate_zero] at hv
      exact hv.symm
    have hdrop : (natChars a ++ '.' :: padDigits k f).reverse.dropWhile (· = '0')
        = '.' :: (natChars a).reverse := by
      rw [hrev]
      exact dropWhile_zeros_append _ _ hallz (Or.inr ⟨'.', _, rfl, by decide⟩)
    refine ⟨[], ?_, by simp, ?_⟩
    · unfold stripTrailingZeros
      rw [show (⟨natChars a ++ '.' :: padDigits k f⟩ : String).data
        = natChars a ++ '.' :: padDigits k f from rfl]
      dsimp only
      rw [hdrop]
      rw [if_pos]
      · show (⟨(natChars a).reverse.reverse⟩ : String) = ⟨natChars a ++ []⟩
        rw [List.reverse_reverse, List.append_nil]
      · rw [hrev]
        simp only [List.length_cons, List.length_append, List.length_reverse]
        omega
    · rw [List.append_nil, hf0]
      have := jsParseFloat_int a [] (Or.inl rfl)
      rw [List.append_nil] at this
      rw [this]
      norm_num
  · -- the fraction has a last nonzero digit `c`; zeros after it go away
    have hcpad : c ∈ padDigits k f := List.mem_reverse.mp (by
      rw [hsplit]
      exact List.mem_append_right _ (List.mem_cons_self _ _))
    have hcdig : c.isDigit = true := padDigits_isDigit k f c hcpad
    have hpaddecomp : padDigits k f = (w.reverse ++ [c]) ++ z.reverse := by
      have := congrArg List.reverse hsplit
      rw [List.reverse_reverse, List.reverse_append, List.reverse_cons] at this
      rw [this, List.append_assoc]
    have hdrop : (natChars a ++ '.' :: padDigits k f).reverse.dropWhile (· = '0')
        = c :: (w ++ '.' :: (natChars a).reverse) := by
      rw [hrev, hsplit, List.append_assoc, List.cons_append]
      exact dropWhile_zeros_append _ _ hz (Or.inr ⟨c, _, rfl, hc⟩)
    have hrevrev : (c :: (w ++ '.' :: (natChars a).reverse)).reverse
        = natChars a ++ '.' :: (w.reverse ++ [c]) := by
      rw [List.reverse_cons, List.reverse_append, List.reverse_cons,
        List.reverse_reverse]
      simp [List.append_assoc]
    have hFd : ∀ x ∈ '.' :: (w.reverse ++ [c]), isDigitOrDot x = true := by
      intro x hx
      rcases List.mem_cons.mp hx with rfl | hx'
      · decide
      · have hxpad : x ∈ padDigits k f := by
          rw [hpaddecomp]
          exact List.mem_append_left _ hx'
        have := padDigits_isDigit k f x hxpad
        simp [isDigitOrDot, this]
    have hfrac : ∀ x ∈ w.reverse ++ [c], x.isDigit = true := by
      intro x hx
      apply padDigits_isDigit k f
      rw [hpaddecomp]
      exact List.mem_append_left _ hx
    -- the value carried by the kept fraction digits
    have hzrev : (z.reverse).map charVal = List.replicate z.length 0 := by
      have : ∀ b ∈ (z.reverse).map charVal, b = 0 := by
        intro b hb
        obtain ⟨x, hx, rfl⟩ := List.mem_map.mp hb
        rw [hz x (List.mem_reverse.mp hx)]
        rfl
      have h2 := List.eq_replicate_of_mem this
      rwa [List.length_map, List.length_reverse] at h2
    have hval : f = natOfBE ((w.reverse ++ [c]).map charVal) * 10 ^ z.length := by
      have hv := natOfBE_padDigits k f
      rw [hpaddecomp, List.map_append, hzrev, natOfBE_append_zeros] at hv
      exact hv.symm
    have hlen : (w.reverse ++ [c]).length + z.length = k := by
      have := hpadlen
      rw [hpaddecomp] at this
      simp only [List.length_append, List.length_reverse,
        List.length_cons, List.length_nil] at this ⊢
      omega
    refine ⟨'.' :: (w.reverse ++ [c]), ?_, hFd, ?_⟩
    · unfold stripTrailingZeros
      rw [show (⟨natChars a ++ '.' :: padDigits k f⟩ : String).data
        = natChars a ++ '.' :: padDigits k f from rfl]
      dsimp only
      rw [hdrop]
      by_cases hcond : (c :: (w ++ '.' :: (natChars a).reverse)).length
          < (natChars a ++ '.' :: padDigits k f).reverse.length
      · rw [if_pos hcond]
        split
        · next r heq =>
          exfalso
          apply isDigit_ne_dot hcdig
          exact (List.cons.injEq _ _ _ _ ▸ heq).1
        · next =>
          rw [hrevrev]
      · rw [if_neg hcond]
        have hz0 : z.length = 0 := by
          rw [hrev, hsplit] at hcond
          simp only [List.length_cons, List.length_append,
            List.length_reverse, not_lt] at hcond
          omega
        have hznil : z = [] := List.length_eq_zero.mp hz0
        rw [hpaddecomp, hznil]
        simp
    · rw [show natChars a ++ '.' :: (w.reverse ++ [c])
        = natChars a ++ '.' :: ((w.reverse ++ [c]) ++ []) from by rw [List.append_nil]]
      rw [jsParseFloat_int_frac a (w.reverse ++ [c]) [] hfrac (Or.inl rfl)]
      congr 1
      rw [hval]
      have h10 : (10 : ℚ) ^ k
          = 10 ^ (w.reverse ++ [c]).length * 10 ^ z.length := by
        rw [← pow_add, hlen]
      rw [h10]
      push_cast
      have hlenpos : (0:ℚ) < 10 ^ (w.reverse ++ [c]).length := by positivity
      have hzpos : (0:ℚ) < 10 ^ z.length := by positivity
      field_simp
      ring

/-- `isPrefixOf` holds on an initial segment. -/
theorem isPrefixOf_append (l t : List Char) : l.isPrefixOf (l ++ t) = true := by
  induction l with
  | nil => simp [List.isPrefixOf]
  | cons a l ih => simp [List.cons_append, List.isPrefixOf, ih]

/-- `takeWhile` takes exactly a satisfying run followed by a failing
head. -/
theorem takeWhile_append_stop (P : Char → Bool) (l : List Char) (c : Char)
    (t : List Char) (hl : ∀ x ∈ l, P x = true) (hc : P c = false) :
    (l ++ c :: t).takeWhile P = l := by
  rw [List.takeWhile_append_of_pos hl, List.takeWhile_cons, if_neg (by simp [hc])]
  simp

/-- The trimmed fluid literal of a nonnegative value: its characters are
digits/dots, it is nonempty, it starts with the integer part, and it
parses back to the 4-decimal rounding of the value. -/
theorem fmtFluid_spec (q : ℚ) (hq : 0 ≤ q) :
    (∀ c ∈ (fmtFluid q).data, isDigitOrDot c = true)
      ∧ (fmtFluid q).data ≠ []
      ∧ jsParseFloat (fmtFluid q)
        = some (((jsRound (q * 10 ^ 4)).toNat : ℚ) / 10 ^ 4) := by
  obtain ⟨F, hstrip, hFd, hparse⟩ :=
    strip_toFixedMag 4 (by norm_num) (jsRound (q * 10 ^ 4)).toNat
  have hfmt : fmtFluid q = ⟨natChars ((jsRound (q * 10 ^ 4)).toNat / 10 ^ 4) ++ F⟩ := by
    unfold fmtFluid jsToFixed
    rw [if_neg (not_lt.mpr hq)]
    exact hstrip
  have hval : ((jsRound (q * 10 ^ 4)).toNat / 10 ^ 4 : ℕ) = (jsRound (q * 10 ^ 4)).toNat / 10 ^ 4 := rfl
  refine ⟨?_, ?_, ?_⟩
  · rw [hfmt]
    intro c hc
    rcases List.mem_append.mp hc with hc' | hc'
    · have := natChars_isDigit _ c hc'
      simp [isDigitOrDot, this]
    · exact hFd c hc'
  · rw [hfmt]
    intro hnil
    exact natChars_ne_nil _ (List.append_eq_nil.mp hnil).1
  · rw [hfmt, hparse]
    congr 1
    set n := (jsRound (q * 10 ^ 4)).toNat
    have h2 : ((10 : ℚ) ^ 4) * ((n / 10 ^ 4 : ℕ) : ℚ) + ((n % 10 ^ 4 : ℕ) : ℚ)
        = (n : ℚ) := by
      exact_mod_cast Nat.div_add_mod n (10 ^ 4)
    field_simp
    linarith

/-- `parseClampExpression` on a well-formed `clamp()` string recovers the
two parsed rem literals scaled by 16. -/
theorem parseClamp_structure (s₁ mid s₂ : String)
    (h₁d : ∀ c ∈ s₁.data, isDigitOrDot c = true) (h₁n : s₁.data ≠ [])
    (h₂d : ∀ c ∈ s₂.data, isDigitOrDot c = true) (h₂n : s₂.data ≠ [])
    (v₁ v₂ : ℚ) (hp₁ : jsParseFloat s₁ = some v₁)
    (hp₂ : jsParseFloat s₂ = some v₂) :
    parseClampExpression ("clamp(" ++ s₁ ++ "rem, " ++ mid ++ ", " ++ s₂ ++ "rem)")
      = some (v₁ * 16, v₂ * 16) := by
  have hdata : (("clamp(" ++ s₁ ++ "rem, " ++ mid ++ ", " ++ s₂ ++ "rem)")
        : String).data
      = "clamp(".data ++ (s₁.data ++ ('r' :: 'e' :: 'm' :: ',' :: ' ' ::
          (mid.data ++ (',' :: ' ' ::
            (s₂.data ++ ['r', 'e', 'm', ')']))))) := by
    simp only [String.data_append, List.append_assoc]
    rfl
  unfold parseClampExpression
  dsimp only
  rw [hdata, isPrefixOf_append, if_pos rfl, List.drop_left]
  rw [takeWhile_append_stop isDigitOrDot s₁.data 'r' _ h₁d (by decide)]
  rw [if_neg (by simpa [List.isEmpty_iff] using h₁n)]
  rw [List.drop_left]
  have hpre2 : "rem,".data.isPrefixOf ('r' :: 'e' :: 'm' :: ',' :: ' ' ::
      (mid.data ++ (',' :: ' ' :: (s₂.data ++ ['r', 'e', 'm', ')'])))) = true := by
    simp [List.isPrefixOf]
  rw [if_pos hpre2]
  have hrevstruct : ("clamp(".data ++ (s₁.data ++ ('r' :: 'e' :: 'm' :: ',' :: ' ' ::
        (mid.data ++ (',' :: ' ' ::
          (s₂.data ++ ['r', 'e', 'm', ')'])))))).reverse
      = "rem)".data.reverse ++ (s₂.data.reverse ++ (' ' ::
          (',' :: mid.data.reverse ++ (' ' :: ',' :: 'm' :: 'e' :: 'r' ::
            (s₁.data.reverse ++ "clamp(".data.reverse))))) := by
    simp [List.reverse_append, List.append_assoc]
  rw [hrevstruct, if_pos (isPrefixOf_append _ _)]
  rw [List.drop_left' (by rfl)]
  rw [show s₂.data.reverse ++ (' ' ::
      (',' :: mid.data.reverse ++ (' ' :: ',' :: 'm' :: 'e' :: 'r' ::
        (s₁.data.reverse ++ "clamp(".data.reverse))))
    = s₂.data.reverse ++ (' ' ::
      ((',' :: mid.data.reverse ++ (' ' :: ',' :: 'm' :: 'e' :: 'r' ::
        (s₁.data.reverse ++ "clamp(".data.reverse))))) from rfl]
  rw [takeWhile_append_stop isDigitOrDot s₂.data.reverse ' ' _
    (fun c hc => h₂d c (List.mem_reverse.mp hc)) (by decide)]
  rw [if_neg (by simpa [List.isEmpty_iff] using (by
    intro h
    exact h₂n (by simpa using congrArg List.reverse h) : s₂.data.reverse ≠ []))]
  rw [List.reverse_reverse]
  rw [show (⟨s₁.data⟩ : String) = s₁ from rfl,
    show (⟨s₂.data⟩ : String) = s₂ from rfl, hp₁, hp₂]

/-- Claim C4, amended: for `0 < minSize < maxSize` and
`0 < minViewport < maxViewport` such that `minSize/16` and `maxSize/16`
have at most 4 decimal places (i.e. `size/16·10⁴` is a natural number —
what survives the `toFixed(4)` formatting exactly), `parseClampExpression`
recovers exactly `minSize` and `maxSize` from the constructed `clamp()`
string.  For other sizes it recovers the 4-decimal roundings instead. -/
theorem parseClamp_calculateFluidSize (minSize maxSize minViewport maxViewport : ℚ)
    (h1 : 0 < minSize) (h2 : minSize < maxSize)
    (h3 : 0 < minViewport) (h4 : minViewport < maxViewport)
    (hrep1 : ∃ n : ℕ, minSize / 16 * 10 ^ 4 = (n : ℚ))
    (hrep2 : ∃ n : ℕ, maxSize / 16 * 10 ^ 4 = (n : ℚ)) :
    parseClampExpression
        (calculateFluidSize minSize maxSize minViewport maxViewport)
      = some (minSize, maxSize) := by
  obtain ⟨n₁, hn₁⟩ := hrep1
  obtain ⟨n₂, hn₂⟩ := hrep2
  have hmax : 0 < maxSize := h1.trans h2
  have hq1 : 0 ≤ minSize / 16 := by positivity
  have hq2 : 0 ≤ maxSize / 16 := by positivity
  obtain ⟨hd1, hnn1, hp1⟩ := fmtFluid_spec (minSize / 16) hq1
  obtain ⟨hd2, hnn2, hp2⟩ := fmtFluid_spec (maxSize / 16) hq2
  have hval : ∀ (sz : ℚ) (n : ℕ), sz / 16 * 10 ^ 4 = (n : ℚ) →
      ((jsRound (sz / 16 * 10 ^ 4)).toNat : ℚ) / 10 ^ 4 = sz / 16 := by
    intro sz n hn
    rw [hn]
    have hden : ((n : ℚ)).den = 1 := Rat.den_natCast n
    have hcast := jsRound_eq_self hden
    have hjr : jsRound ((n : ℚ)) = (n : ℤ) := by exact_mod_cast hcast
    rw [hjr, Int.toNat_natCast, ← hn]
    field_simp
    ring
  unfold calculateFluidSize
  dsimp only
  rw [parseClamp_structure (fmtFluid (minSize / 16)) _ (fmtFluid (maxSize / 16))
    hd1 hnn1 hd2 hnn2 _ _ hp1 hp2]
  rw [hval minSize n₁ hn₁, hval maxSize n₂ hn₂]
  congr 1
  rw [Prod.mk.injEq]
  constructor <;> field_simp

/-- Witness for C4 (amended) at `minSize = 16`, `maxSize = 24`,
viewports 320–1920. -/
theorem parseClamp_calculateFluidSize_witness :
    parseClampExpression (calculateFluidSize 16 24 320 1920) = some (16, 24) :=
  parseClamp_calculateFluidSize 16 24 320 1920 (by norm_num) (by norm_num)
    (by norm_num) (by norm_num) ⟨10000, by norm_num⟩ ⟨15000, by norm_num⟩

/-- Counterexample to C4 as stated: at `minSize = 0.333` px (valid:
`0 < 0.333 < 2`, viewports `0 < 320 < 1920`) the parse returns
`0.3328 ≠ 0.333` — the 4-decimal `toFixed` formatting loses the exact
value. -/
theorem parseClamp_roundtrip_counterexample :
    (0:ℚ) < 333/1000 ∧ (333:ℚ)/1000 < 2 ∧ (0:ℚ) < 320 ∧ (320:ℚ) < 1920
      ∧ parseClampExpression (calculateFluidSize (333/1000) 2 320 1920)
        = some (208/625, 2)
      ∧ (208/625 : ℚ) ≠ 333/1000 :=
  ⟨by norm_num, by norm_num, by norm_num, by norm_num,
   by with_unfolding_all rfl, by norm_num⟩

end Textnode
